import Mathlib

/-!
BOOS kernel primitives: semaphore, escalator, interrupt toggles, timer driver.

A shallow embedding of the synchronization and interrupt classes of the
BOOS real-time kernel, with the properties its specification states.

Conventions of the embedding:

* a pointer to an `api::Thread` is the address of the thread, a natural
  number; `NULL` is `none`;
* `int32` values are integers; the embedded operations only compare them, add
  a released amount or subtract an acquired amount, and the result is taken to
  be representable (signed overflow has no defined result in C++);
* a member function becomes a function from the object before the call to the
  object after the call, paired with what the call returns;
* a call of `acquire` that suspends its thread is the outcome `blocked`; the
  suspended call returns `true` when a later `release` wakes the thread;
* the static members of the timer driver, the timer registers and the global
  interrupt enable bit form the state `Driver`, which every operation of a
  `TimerController` takes and returns; the pointer `regTim_` is the timer whose
  register block it addresses; conversions between `int64`, `uint64` and
  `uint32` are written out with their moduli.
-/

namespace Boos

/-- Address of an `api::Thread` object. -/
abbrev Thread := Nat

/-! ## kernel::Semaphore -/

/-- Element of `Semaphore::fifo_`: the blocked thread, together with the
argument `permits` of its suspended `acquire(permits)` call. -/
structure Waiter where
  thread : Thread
  permits : Int
  deriving DecidableEq, Repr

/-- Data members of `kernel::Semaphore` (kernel.Semaphore.hpp, lines 132-150). -/
structure Semaphore where
  isConstructed_ : Bool
  permits_ : Int
  isFair_ : Bool
  fifo_ : List Waiter
  deriving DecidableEq, Repr

/-- How a call of `acquire` ends for the calling thread: it returns a value, or
the thread is queued and suspended. -/
inductive Acquired where
  | returned (res : Bool)
  | blocked
  deriving DecidableEq, Repr

/-- Modelled from the spec: the body of `Semaphore::construct` is missing
(kernel.Semaphore.cpp). Construction fails on a negative initial permit count
or when the storage of the wait queue (`storage`) cannot be allocated. -/
def Semaphore.construct (permits : Int) (storage : Bool) : Bool :=
  if !storage then false
  else if permits < 0 then false
  else true

/-- Modelled from the spec: the body of the constructor
`Semaphore::Semaphore(int32 permits, bool isFair)` is missing. The object keeps
the permit count and the fairness mode, starts with no waiter, and its validity
flag is the result of `construct`. The one-argument constructor differs only
in fixing the fairness mode. -/
def Semaphore.new (permits : Int) (isFair : Bool) (storage : Bool) : Semaphore :=
  { isConstructed_ := Semaphore.construct permits storage
    permits_ := permits
    isFair_ := isFair
    fifo_ := [] }

/-- Validity query `Semaphore::isConstructed`. -/
def Semaphore.isConstructed (s : Semaphore) : Bool :=
  s.isConstructed_

/-- Fairness query `Semaphore::isFair`. -/
def Semaphore.isFair (s : Semaphore) : Bool :=
  s.isFair_

/-- Modelled from the spec: the wake-up scan of `Semaphore::release` is missing.
The queue is walked from its head; a waiter whose request is covered by the
available permits is woken and its request is debited; the walk ends at the
first waiter whose request is not covered. The result is the woken waiters in
wake-up order, the permits left, and the waiters still queued. -/
def wake : Int → List Waiter → List Waiter × Int × List Waiter
  | permits, [] => ([], permits, [])
  | permits, w :: ws =>
    if w.permits ≤ permits then
      let r := wake (permits - w.permits) ws
      (w :: r.1, r.2.1, r.2.2)
    else ([], permits, w :: ws)

/-- Modelled from the spec: the body of `Semaphore::acquireFair` is missing.
With enough permits the count is decremented and the call returns true;
otherwise the calling thread is queued at the tail and suspended. -/
def Semaphore.acquireFair (s : Semaphore) (thread : Thread) (permits : Int) :
    Semaphore × Acquired :=
  if permits ≤ s.permits_ then
    ({ s with permits_ := s.permits_ - permits }, Acquired.returned true)
  else
    ({ s with fifo_ := s.fifo_ ++ [⟨thread, permits⟩] }, Acquired.blocked)

/-- Modelled from the spec: the body of `Semaphore::acquireUnfair` is missing.
With enough permits the count is decremented and the call returns true;
otherwise the calling thread is pushed on top of the queue (stack order) and
suspended. -/
def Semaphore.acquireUnfair (s : Semaphore) (thread : Thread) (permits : Int) :
    Semaphore × Acquired :=
  if permits ≤ s.permits_ then
    ({ s with permits_ := s.permits_ - permits }, Acquired.returned true)
  else
    ({ s with fifo_ := ⟨thread, permits⟩ :: s.fifo_ }, Acquired.blocked)

/-- Modelled from the spec: the body of `Semaphore::acquire(int32)` is missing.
An invalid object and a non-positive argument are rejected with false and no
effect; otherwise the fair or the unfair acquisition runs for the calling
thread `thread`. -/
def Semaphore.acquire (s : Semaphore) (thread : Thread) (permits : Int) :
    Semaphore × Acquired :=
  if !s.isConstructed_ then (s, Acquired.returned false)
  else if permits ≤ 0 then (s, Acquired.returned false)
  else if s.isFair_ then s.acquireFair thread permits
  else s.acquireUnfair thread permits

/-- Modelled from the spec: the body of `Semaphore::release(int32)` is missing.
An invalid object and a non-positive argument make the call a no-op; otherwise
the argument is added to the permits and the queue is scanned by `wake`. The
second component is the list of waiters woken by the call. -/
def Semaphore.release (s : Semaphore) (permits : Int) : Semaphore × List Waiter :=
  if !s.isConstructed_ then (s, [])
  else if permits ≤ 0 then (s, [])
  else
    let r := wake (s.permits_ + permits) s.fifo_
    ({ s with permits_ := r.2.1, fifo_ := r.2.2 }, r.1)

/-- Modelled from the spec: the body of `Semaphore::isBlocked` is missing. On a
valid object it is true iff the permit count is not positive; an invalid object
answers false. -/
def Semaphore.isBlocked (s : Semaphore) : Bool :=
  if !s.isConstructed_ then false
  else decide (s.permits_ ≤ 0)

/-- One call on a semaphore: `acquire(permits)` by a thread, or
`release(permits)`. -/
inductive SemOp where
  | acquire (thread : Thread) (permits : Int)
  | release (permits : Int)
  deriving DecidableEq, Repr

/-- Argument `permits` of a call. -/
def SemOp.amount : SemOp → Int
  | SemOp.acquire _ n => n
  | SemOp.release n => n

/-- Number of `acquire` calls of a sequence. -/
def countAcquire : List SemOp → Nat
  | [] => 0
  | SemOp.acquire _ _ :: ops => countAcquire ops + 1
  | SemOp.release _ :: ops => countAcquire ops

/-- Sum of the arguments of the `acquire` calls of a sequence. -/
def sumAcquired : List SemOp → Int
  | [] => 0
  | SemOp.acquire _ n :: ops => n + sumAcquired ops
  | SemOp.release _ :: ops => sumAcquired ops

/-- Sum of the arguments of the `release` calls of a sequence. -/
def sumReleased : List SemOp → Int
  | [] => 0
  | SemOp.acquire _ _ :: ops => sumReleased ops
  | SemOp.release n :: ops => n + sumReleased ops

/-- Runs a sequence of calls in order; the result is the semaphore after the
last call and the outcomes of the `acquire` calls, in call order. -/
def Semaphore.run : Semaphore → List SemOp → Semaphore × List Acquired
  | s, [] => (s, [])
  | s, SemOp.acquire t n :: ops =>
    let r := s.acquire t n
    let rest := Semaphore.run r.1 ops
    (rest.1, r.2 :: rest.2)
  | s, SemOp.release n :: ops =>
    Semaphore.run (s.release n).1 ops

/-- No `acquire` of the sequence has to block, read off the calls alone: with
`permits` available at the start, every `acquire(n)` finds at least `n`
permits, namely the initial ones plus those released minus those acquired by
the calls before it. -/
def neverShort : Int → List SemOp → Bool
  | _, [] => true
  | permits, SemOp.acquire _ n :: ops => decide (n ≤ permits) && neverShort (permits - n) ops
  | permits, SemOp.release n :: ops => neverShort (permits + n) ops

/-- The permits `avail` are enough to satisfy only one of two queued requests
`a` and `b`: one of the requests is covered, both together are not. -/
def SatisfiesOnlyOne (avail a b : Int) : Prop :=
  (a ≤ avail ∨ b ≤ avail) ∧ ¬ (a + b ≤ avail)

instance (avail a b : Int) : Decidable (SatisfiesOnlyOne avail a b) :=
  inferInstanceAs (Decidable ((a ≤ avail ∨ b ≤ avail) ∧ ¬ (a + b ≤ avail)))

/-! ## kernel::Escalator -/

/-- Node of the escalator lists, `Escalator::Node` (kernel.Escalator.hpp, lines
97-185): the number of permits the thread waits for and the thread, `none`
being the `NULL` pointer of an illegal node. -/
structure Node where
  permits : Int
  thread_ : Option Thread
  deriving DecidableEq, Repr

/-- Constructor `Node(::api::Thread& thread, int32 ipermits)`. -/
def Node.new (thread : Thread) (ipermits : Int) : Node :=
  { permits := ipermits, thread_ := some thread }

/-- Copy constructor `Node(const Node& obj)`. -/
def Node.copy (obj : Node) : Node :=
  { permits := obj.permits, thread_ := obj.thread_ }

/-- Constructor `Node(int32 ipermits)`, which constructs the node as illegal. -/
def Node.illegal (ipermits : Int) : Node :=
  { permits := ipermits, thread_ := none }

/-- Assignment `Node::operator =`: the thread is stored first, then the
permits; the result is the object assigned to. -/
def Node.assign (self node : Node) : Node :=
  let s1 := { self with thread_ := node.thread_ }
  { s1 with permits := node.permits }

/-- Equality `operator ==(const Node&, const Node&)` (lines 302-305). -/
def Node.operatorEq (obj1 obj2 : Node) : Bool :=
  if obj1.thread_ = obj2.thread_ then true else false

/-- Inequality `operator !=(const Node&, const Node&)` (lines 314-317). -/
def Node.operatorNe (obj1 obj2 : Node) : Bool :=
  if obj1.thread_ ≠ obj2.thread_ then true else false

/-- Lists of the escalator, `Escalator::List` (lines 190-244); a linked list
is the sequence of its elements, head first, in the order they were added. -/
structure EscalatorList where
  illegal_ : Node
  exec : List Node
  lock : List Node
  deriving DecidableEq, Repr

/-- Constructor `List()`: the illegal value is `Node(-1)`, both lists empty. -/
def EscalatorList.new : EscalatorList :=
  { illegal_ := Node.illegal (-1), exec := [], lock := [] }

/-- Data members of `kernel::Escalator` (lines 276-289), with the construction
flag of its root `Object`. -/
structure Escalator where
  isConstructed_ : Bool
  permits_ : Int
  isFair_ : Bool
  list_ : EscalatorList
  deriving DecidableEq, Repr

/-- Modelled from the spec: the release pass of `Escalator::release` is missing
(kernel.Escalator.cpp). The candidates are evaluated in the given order; a
candidate whose request is covered by the pool is removed and woken, and its
request is debited from the pool before the next candidate is evaluated; the
pass ends at the first candidate whose request is not covered. The result is
the woken nodes in wake-up order, the pool left, and the nodes still waiting. -/
def releasePass : Int → List Node → List Node × Int × List Node
  | pool, [] => ([], pool, [])
  | pool, c :: cs =>
    if c.permits ≤ pool then
      let r := releasePass (pool - c.permits) cs
      (c :: r.1, r.2.1, r.2.2)
    else ([], pool, c :: cs)

/-- Modelled from the spec: the body of `Escalator::release(int32)` is missing.
An invalid object and a non-positive argument make the call a no-op; otherwise
the argument is added to the pool and the list of locked threads is passed over
in fairness order: from the head (arrival order) when fair, from the most
recently added node when unfair. The second component is the woken nodes. -/
def Escalator.release (e : Escalator) (permits : Int) : Escalator × List Node :=
  if !e.isConstructed_ then (e, [])
  else if permits ≤ 0 then (e, [])
  else if e.isFair_ then
    let r := releasePass (e.permits_ + permits) e.list_.lock
    ({ e with permits_ := r.2.1, list_ := { e.list_ with lock := r.2.2 } }, r.1)
  else
    let r := releasePass (e.permits_ + permits) e.list_.lock.reverse
    ({ e with permits_ := r.2.1, list_ := { e.list_ with lock := r.2.2.reverse } }, r.1)

/-- Modelled from the spec: the body of `Escalator::removeNode` is missing. The
list is searched from its head for the node that equals `node` (`operator ==`,
the same thread); that node is excised and the call returns true; a list
without such a node is left as it is and the call returns false. -/
def Escalator.removeNode : List Node → Node → Bool × List Node
  | [], _ => (false, [])
  | x :: xs, node =>
    if Node.operatorEq x node then (true, xs)
    else
      let r := Escalator.removeNode xs node
      (r.1, x :: r.2)

/-! ## system::Interrupt::Global -/

/-- Data members of `Interrupt::Global` (boos.system.Interrupt.hpp, lines
141-192). The processor state it toggles, the global interrupt enable bit, is
passed to its operations. -/
structure Global where
  isConstructed_ : Bool
  deriving DecidableEq, Repr

/-- Validity query `Global::isConstructed` (lines 166-169). -/
def Global.isConstructed (g : Global) : Bool :=
  g.isConstructed_

/-- Modelled from the spec: the body of `Interrupt::Global::disable` is
missing. It disables all maskable interrupts and returns the global interrupt
enable bit as it was before the call; an invalid object does nothing and
returns false. The result is the returned value and the bit after the call. -/
def Global.disable (g : Global) (gie : Bool) : Bool × Bool :=
  if !g.isConstructed_ then (false, gie)
  else (gie, false)

/-- Modelled from the spec: the body of `Interrupt::Global::enable` is missing.
It enables the interrupts only if `status`, the value saved from the matching
disable, says they were on; an invalid object does nothing. The result is the
global interrupt enable bit after the call. -/
def Global.enable (g : Global) (status : Bool) (gie : Bool) : Bool :=
  if !g.isConstructed_ then gie
  else if status then true
  else gie

/-! ## system::TimerInterrupt -/

/-- Address of an `api::Task` object, the interrupt handler. -/
abbrev Task := Nat

/-- What `TimerInterrupt::construct` reads of its two base resources (their
classes are not part of the sources): the construction flags of `ResInt` and
`ResTim`, the answers of the timer driver, and `setHandler` of the interrupt
driver, a function of the driver state `D` returning its result and the state
after the call. -/
structure TimerInterrupt (D : Type) where
  resIntIsConstructed : Bool
  resTimIsConstructed : Bool
  isInterrupting : Bool
  getInterrupSource : Int
  setHandler : D → Task → Int → Bool × D

/-- Validity query `TimerInterrupt::isConstructed` (system.TimerInterrupt.cpp,
lines 72-77). -/
def TimerInterrupt.isConstructed {D : Type} (o : TimerInterrupt D) : Bool :=
  if !o.resIntIsConstructed then false
  else if !o.resTimIsConstructed then false
  else true

/-- Member `TimerInterrupt::construct(::api::Task* handler)` (lines 59-65);
`none` is the `NULL` handler, `d` the state of the interrupt driver before the
call. The result is the returned value and the driver state after the call. -/
def TimerInterrupt.construct {D : Type} (o : TimerInterrupt D) (handler : Option Task)
    (d : D) : Bool × D :=
  if !o.isConstructed then (false, d)
  else if !o.isInterrupting then (false, d)
  else
    match handler with
    | none => (true, d)
    | some h => o.setHandler d h o.getInterrupSource

/-! ## driver::TimerController (TMS320C64x) -/

/-- Value an `int32` holds after the integer `x` is converted to it. -/
def toInt32 (x : Int) : Int :=
  (x + 2147483648) % 4294967296 - 2147483648

/-- Value an `int64` holds after the integer `x` is converted to it; the
product of two `int64` is taken modulo 2^64, as the processor computes it. -/
def toInt64 (x : Int) : Int :=
  (x + 9223372036854775808) % 18446744073709551616 - 9223372036854775808

/-- Value a `uint64` holds after the integer `x` is converted to it. -/
def toUInt64 (x : Int) : Nat :=
  (x % 18446744073709551616).toNat

/-- Value a `uint32` holds after the natural number `x` is converted to it. -/
def toUInt32 (x : Nat) : Nat :=
  x % 4294967296

/-- Register block of one hardware timer, `reg::Timer`: the values of its
control, period and counter registers (`ctl.value`, `prd.value`,
`cnt.value`), each a `uint32`. -/
structure TimerRegs where
  ctl : Nat
  prd : Nat
  cnt : Nat
  deriving DecidableEq, Repr

/-- What the register header driver.reg.Timer.hpp, which is not part of the
sources, fixes: `ctor` is the content the constructor `reg::Timer()` leaves in
a register block given its content before; `ctlStart` is the value of a `CTL`
made from 0 with the bits `hld`, `clksrc`, `spnd` and `go` set. -/
structure RegTimer where
  ctor : TimerRegs → TimerRegs
  ctlStart : Nat

/-- The operating system configuration `::Configuration`, as far as the
drivers read it. -/
structure Configuration where
  cpuClock : Int
  sourceClock : Int
  deriving DecidableEq, Repr

/-- What a call does to the global interrupt enable bit and to the lock table,
in program order: a `globalDisable` with the bit it found, a `globalEnable`
with the status it was given, a write of `lock_[i]` with the value written and
the bit at the moment of the write. -/
inductive Event where
  | globalDisable (was : Bool)
  | globalEnable (status : Bool)
  | lockWrite (i : Fin 3) (value : Bool) (gie : Bool)
  deriving DecidableEq, Repr

/-- Static members of `driver::TimerController` (lines 285-308) with the
hardware they act on: the register blocks of the three timers and the global
interrupt enable bit `gie`; `trace` records the events of the calls so far. -/
structure Driver where
  isInitialized_ : Int
  config_ : Configuration
  lock_ : Fin 3 → Bool
  regs : Fin 3 → TimerRegs
  gie : Bool
  trace : List Event

/-- The driver initialized flag value, `static const int32 IS_INITIALIZED =
0x95633217` (line 288). -/
def IS_INITIALIZED : Int :=
  toInt32 0x95633217

/-- Number of hardware timers, `RESOURCES_NUMBER` (line 293). -/
def RESOURCES_NUMBER : Nat :=
  3

/-- Enumerators `TINT0`, `TINT1`, `TINT2` of `InterruptSource` (lines 26-31). -/
def TINT0 : Int :=
  0x01

/-- Timer 1 interrupt. -/
def TINT1 : Int :=
  0x02

/-- Timer 2 interrupt. -/
def TINT2 : Int :=
  0x13

/-- Modelled from the spec: `Interrupt::globalDisable()` of the missing
driver.Interrupt.hpp. It disables the interrupts and returns the global
interrupt enable bit as it was before the call. -/
def globalDisable (d : Driver) : Bool × Driver :=
  (d.gie, { d with gie := false, trace := d.trace ++ [Event.globalDisable d.gie] })

/-- Modelled from the spec: `Interrupt::globalEnable(is)` of the missing
driver.Interrupt.hpp. It enables the interrupts only when `is`, the status
saved from a `globalDisable`, is true. -/
def globalEnable (d : Driver) (is : Bool) : Driver :=
  { d with gie := if is then true else d.gie, trace := d.trace ++ [Event.globalEnable is] }

/-- Modelled from the spec: `Interrupt::globalEnable(is, ret)`, which does what
`globalEnable(is)` does and returns `ret`. -/
def globalEnableRet (d : Driver) (is ret : Bool) : Bool × Driver :=
  (ret, globalEnable d is)

/-- Assignment `lock_[i] = value`. -/
def writeLock (d : Driver) (i : Fin 3) (value : Bool) : Driver :=
  { d with lock_ := Function.update d.lock_ i value
           trace := d.trace ++ [Event.lockWrite i value d.gie] }

/-- Placement `new (ADDRESSi) reg::Timer()`: the register block of timer `i`
is constructed in place. -/
def placeTimer (hw : RegTimer) (d : Driver) (i : Fin 3) : Driver :=
  { d with regs := Function.update d.regs i (hw.ctor (d.regs i)) }

/-- The timer selected by the `switch` over an index (lines 256-262 and
222-228): the cases 0, 1 and 2, `none` for the `default` case. -/
def timerOf (index : Int) : Option (Fin 3) :=
  if index = 0 then some 0
  else if index = 1 then some 1
  else if index = 2 then some 2
  else none

/-- Static `TimerController::init` (lines 216-233); its loop runs for the
indexes 0, 1 and 2, none of which takes the `default` case. -/
def TimerController.init (hw : RegTimer) (d : Driver) (config : Configuration) :
    Bool × Driver :=
  let d0 := { d with isInitialized_ := 0, config_ := config }
  let d1 := writeLock (placeTimer hw d0 0) 0 false
  let d2 := writeLock (placeTimer hw d1 1) 1 false
  let d3 := writeLock (placeTimer hw d2 2) 2 false
  (true, { d3 with isInitialized_ := IS_INITIALIZED })

/-- Static `TimerController::deinit` (lines 238-241). -/
def TimerController.deinit (d : Driver) : Driver :=
  { d with isInitialized_ := 0 }

/-- Data members of a `TimerController` object (lines 310-318) with the
construction flag `isConstructed_` of its parent; `regTim_` is the timer whose
register block the pointer addresses, `none` for `NULL`. -/
structure TimerController where
  isConstructed_ : Bool
  index_ : Int
  regTim_ : Option (Fin 3)
  deriving DecidableEq, Repr

/-- Modelled from the spec: `setConstruct` of the root object, which is not
part of the sources; it stores the validity flag computed by construction. -/
def TimerController.setConstruct (o : TimerController) (flag : Bool) : TimerController :=
  { o with isConstructed_ := flag }

/-- The object after the member initializers `Parent(), index_ (-1),
regTim_ (NULL)` of both constructors. -/
def TimerController.initial : TimerController :=
  { isConstructed_ := true, index_ := -1, regTim_ := none }

/-- Member `TimerController::construct(int32 index)` (lines 251-268). The
result is the driver after the call, the object after the call and the
returned value. -/
def TimerController.construct (hw : RegTimer) (o : TimerController) (d : Driver)
    (index : Int) : Driver × TimerController × Bool :=
  if d.isInitialized_ ≠ IS_INITIALIZED then (d, o, false)
  else
    let r := globalDisable d
    match timerOf index with
    | none => ((globalEnableRet r.2 r.1 false).2, o, (globalEnableRet r.2 r.1 false).1)
    | some i =>
      if r.2.lock_ i = true then
        ((globalEnableRet r.2 r.1 false).2, o, (globalEnableRet r.2 r.1 false).1)
      else
        let d1 := placeTimer hw r.2 i
        let d2 := writeLock d1 i true
        let o1 := { o with regTim_ := some i, index_ := index }
        ((globalEnableRet d2 r.1 true).2, o1, (globalEnableRet d2 r.1 true).1)

/-- Constructor `TimerController(int32 index)` (lines 55-59). -/
def TimerController.newIndex (hw : RegTimer) (d : Driver) (index : Int) :
    Driver × TimerController :=
  let r := TimerController.initial.construct hw d index
  (r.1, r.2.1.setConstruct r.2.2)

/-- The loop of the default constructor (lines 39-47) from index `i` on, with
`n` iterations left: the first successful `construct(i)` ends the constructor
with the flag true; after the last iteration the flag is set false. -/
def TimerController.newLoop (hw : RegTimer) :
    Nat → Int → Driver → TimerController → Driver × TimerController
  | 0, _, d, o => (d, o.setConstruct false)
  | n + 1, i, d, o =>
    let r := o.construct hw d i
    if r.2.2 = true then (r.1, r.2.1.setConstruct true)
    else TimerController.newLoop hw n (i + 1) r.1 r.2.1

/-- Default constructor `TimerController()` (lines 36-48). -/
def TimerController.new (hw : RegTimer) (d : Driver) : Driver × TimerController :=
  TimerController.newLoop hw RESOURCES_NUMBER 0 d TimerController.initial

/-- Register block read through `regTim_`. A constructed object never holds
`NULL` there; a read through `NULL`, which the source never makes, gives zeros. -/
def readRegs (d : Driver) (regTim : Option (Fin 3)) : TimerRegs :=
  match regTim with
  | some i => d.regs i
  | none => { ctl := 0, prd := 0, cnt := 0 }

/-- Register block written through `regTim_`: the block it addresses becomes
`f` of its content; a write through `NULL`, which the source never makes,
writes nothing. -/
def writeRegs (d : Driver) (regTim : Option (Fin 3)) (f : TimerRegs → TimerRegs) : Driver :=
  match regTim with
  | some i => { d with regs := Function.update d.regs i (f (d.regs i)) }
  | none => d

/-- Member `TimerController::getCount` (lines 80-83). -/
def TimerController.getCount (o : TimerController) (d : Driver) : Int :=
  if o.isConstructed_ then ((readRegs d o.regTim_).cnt : Int) else 0

/-- Member `TimerController::getPeriod` (lines 90-93). -/
def TimerController.getPeriod (o : TimerController) (d : Driver) : Int :=
  if o.isConstructed_ then ((readRegs d o.regTim_).prd : Int) else 0

/-- Member `TimerController::setCount(int64 count)` (lines 100-107). -/
def TimerController.setCount (o : TimerController) (d : Driver) (count : Int) : Driver :=
  if !o.isConstructed_ then d
  else
    let cnt : Nat := toUInt64 count
    let prd : Nat := toUInt64 (o.getPeriod d)
    if cnt > prd then d
    else writeRegs d o.regTim_ fun r => { r with cnt := toUInt32 (cnt &&& 0x00000000ffffffff) }

/-- Member `TimerController::internalClock` (lines 179-182): the processor
clock shifted right by 3, an arithmetic shift. -/
def TimerController.internalClock (_o : TimerController) (d : Driver) : Int :=
  d.config_.cpuClock >>> (3 : Nat)

/-- The call `setPeriod()` with the default argument `us = 0`: the body of
`setPeriod` on its branch `us == 0` (lines 116-120). -/
def TimerController.setPeriodDefault (o : TimerController) (d : Driver) : Driver :=
  if !o.isConstructed_ then d
  else writeRegs d o.regTim_ fun r => { r with prd := toUInt32 0xffffffff }

/-- Member `TimerController::setPeriod(int64 us)` (lines 114-129); the product
and the quotient are `int64`, the quotient rounds toward zero. -/
def TimerController.setPeriod (o : TimerController) (d : Driver) (us : Int) : Driver :=
  if !o.isConstructed_ then d
  else if us = 0 then
    writeRegs d o.regTim_ fun r => { r with prd := toUInt32 0xffffffff }
  else
    let clock : Int := o.internalClock d
    if clock = 0 then d
    else
      let prd : Nat := toUInt64 (Int.tdiv (toInt64 (us * clock)) 1000000)
      if prd &&& 0xffffffff00000000 = 0 then
        writeRegs d o.regTim_ fun r => { r with prd := toUInt32 (prd &&& 0x00000000ffffffff) }
      else o.setPeriodDefault d

/-- Member `TimerController::start` (lines 134-143). -/
def TimerController.start (hw : RegTimer) (o : TimerController) (d : Driver) : Driver :=
  if !o.isConstructed_ then d
  else writeRegs d o.regTim_ fun r => { r with ctl := hw.ctlStart }

/-- Member `TimerController::stop` (lines 148-152). -/
def TimerController.stop (o : TimerController) (d : Driver) : Driver :=
  if !o.isConstructed_ then d
  else writeRegs d o.regTim_ fun r => { r with ctl := 0 }

/-- Member `TimerController::getIndex` (lines 159-162). -/
def TimerController.getIndex (o : TimerController) : Int :=
  if o.isConstructed_ then o.index_ else -1

/-- Member `TimerController::digits` (lines 169-172). -/
def TimerController.digits (_o : TimerController) : Int :=
  32

/-- Member `TimerController::isInterrupting` (lines 189-192). -/
def TimerController.isInterrupting (_o : TimerController) : Bool :=
  true

/-- Member `TimerController::interrupSource` (lines 199-208). -/
def TimerController.interrupSource (o : TimerController) : Int :=
  if o.index_ = 0 then TINT0
  else if o.index_ = 1 then TINT1
  else if o.index_ = 2 then TINT2
  else -1

/-- Destructor `TimerController::~TimerController` (lines 64-73). The result
is the driver and the members of the object when the body ends. A constructed
object holds an index among 0, 1, 2; for another index, which the source never
has there, no lock entry is written. -/
def TimerController.destroy (o : TimerController) (d : Driver) : Driver × TimerController :=
  if !o.isConstructed_ then (d, o)
  else
    let r := globalDisable d
    let d1 := match timerOf o.index_ with
      | some i => writeLock r.2 i false
      | none => r.2
    let d2 := o.stop d1
    let o1 := { o with regTim_ := none }
    let o2 := { o1 with index_ := -1 }
    (globalEnable d2 r.1, o2)

/-- One step of a program using the driver: the construction of a controller,
by `TimerController()` for `none` and by `TimerController(index)` for
`some index`, or the destruction of the `k`-th live controller. -/
inductive TimerOp where
  | create (index : Option Int)
  | destroy (k : Nat)
  deriving DecidableEq, Repr

/-- The driver together with the controller objects that are alive, in the
order they were constructed. -/
structure TimerSystem where
  driver : Driver
  live : List TimerController

/-- Effect of one step: a constructed object, valid or not, joins the live
objects; a destroyed one leaves them after its destructor has run; a
destruction naming no live object does nothing. -/
def TimerSystem.step (hw : RegTimer) (s : TimerSystem) : TimerOp → TimerSystem
  | TimerOp.create none =>
    { driver := (TimerController.new hw s.driver).1
      live := s.live ++ [(TimerController.new hw s.driver).2] }
  | TimerOp.create (some index) =>
    { driver := (TimerController.newIndex hw s.driver index).1
      live := s.live ++ [(TimerController.newIndex hw s.driver index).2] }
  | TimerOp.destroy k =>
    match s.live.get? k with
    | none => s
    | some o => { driver := (o.destroy s.driver).1, live := s.live.eraseIdx k }

/-- Effect of a sequence of steps, in order. -/
def TimerSystem.run (hw : RegTimer) (s : TimerSystem) (ops : List TimerOp) : TimerSystem :=
  ops.foldl (TimerSystem.step hw) s

/-- The system right after `TimerController::init`, with no controller alive. -/
def TimerSystem.boot (hw : RegTimer) (d : Driver) (config : Configuration) : TimerSystem :=
  { driver := (TimerController.init hw d config).2, live := [] }

/-- A register header for the worked examples: the constructor of a register
block leaves its content, a started timer has the control value 0x2C0. -/
def exampleHw : RegTimer :=
  { ctor := fun r => r, ctlStart := 0x2C0 }

/-- The driver before `init` has run, for the worked examples: nothing
initialized, no timer locked, registers zero, interrupts enabled. -/
def coldDriver : Driver :=
  { isInitialized_ := 0
    config_ := { cpuClock := 0, sourceClock := 0 }
    lock_ := fun _ => false
    regs := fun _ => { ctl := 0, prd := 0, cnt := 0 }
    gie := true
    trace := [] }

/-- The driver right after `init` with a processor clock of 800 MHz, for the
worked examples. -/
def warmDriver : Driver :=
  (TimerController.init exampleHw coldDriver { cpuClock := 800000000, sourceClock := 0 }).2

/-- The events of one call form a matched bracket around the interrupt bit
`g` found at entry: either no event at all, or one `globalDisable` that found
`g`, then only writes of the lock table made with the interrupts disabled, then
one `globalEnable` given the saved `g`. -/
def Bracketed (g : Bool) (evs : List Event) : Prop :=
  evs = [] ∨
    ∃ mid : List Event, evs = Event.globalDisable g :: (mid ++ [Event.globalEnable g]) ∧
      ∀ e ∈ mid, ∃ i v, e = Event.lockWrite i v false

/-- The driver and the controller after `TimerController(1)` on the
initialized driver of the worked examples. -/
def exampleTimer : Driver × TimerController :=
  TimerController.newIndex exampleHw warmDriver 1

/-- Two controllers that are both constructed hold different timer indexes. -/
def Apart (a b : TimerController) : Prop :=
  a.isConstructed_ = true → b.isConstructed_ = true → a.index_ ≠ b.index_

/-- The lock table agrees with the live controllers: every live constructed
controller holds an index among 0, 1, 2, no two of them hold the same index,
and `lock_[i]` is true exactly when a live constructed controller holds `i`. -/
def TimerSystem.Consistent (s : TimerSystem) : Prop :=
  (∀ o ∈ s.live, o.isConstructed_ = true → ∃ i : Fin 3, o.index_ = (i.val : Int)) ∧
    s.live.Pairwise Apart ∧
    (∀ i : Fin 3, s.driver.lock_ i = true ↔
      ∃ o ∈ s.live, o.isConstructed_ = true ∧ o.index_ = (i.val : Int))

/-- The object a constructor leaves is either invalid, with the lock table as
it was, or a valid holder of a timer that was not locked, whose lock entry is
now the only one changed. -/
def Outcome (d d' : Driver) (o : TimerController) : Prop :=
  (o.isConstructed_ = false ∧ d'.lock_ = d.lock_) ∨
    ∃ i : Fin 3, d.lock_ i = false ∧
      o = { isConstructed_ := true, index_ := (i.val : Int), regTim_ := some i } ∧
      d'.lock_ = Function.update d.lock_ i true

/-! ## Theorems -/

/-- A run reports one outcome per acquire call. -/
theorem run_outcomes_length (ops : List SemOp) :
    ∀ s : Semaphore, (s.run ops).2.length = countAcquire ops := by
  induction ops with
  | nil => intro s; rfl
  | cons op ops ih =>
    intro s
    cases op with
    | acquire t n => simp [Semaphore.run, countAcquire, ih]
    | release n => simp [Semaphore.run, countAcquire, ih]

/-- From a valid semaphore with no waiter and for calls with arguments >= 1:
the calls never find the permits short exactly when no acquire of the run
blocks, and then every acquire returns true, the queue stays empty and the
count moves by exactly the released minus the acquired. -/
theorem run_never_short_aux (ops : List SemOp) :
    ∀ s : Semaphore, s.isConstructed_ = true → s.fifo_ = [] →
      (∀ op ∈ ops, 1 ≤ op.amount) →
      (neverShort s.permits_ ops = true ↔ ∀ r ∈ (s.run ops).2, r ≠ Acquired.blocked) ∧
      (neverShort s.permits_ ops = true →
        (s.run ops).2 = List.replicate (countAcquire ops) (Acquired.returned true) ∧
        (s.run ops).1.permits_ = s.permits_ + sumReleased ops - sumAcquired ops ∧
        (s.run ops).1.fifo_ = []) := by
  induction ops with
  | nil =>
    intro s _ hq _
    simp [Semaphore.run, sumReleased, sumAcquired, countAcquire, neverShort, hq]
  | cons op ops ih =>
    intro s hc hq hpos
    have hpos' : ∀ o ∈ ops, 1 ≤ o.amount := fun o ho => hpos o (List.mem_cons_of_mem _ ho)
    have hop : 1 ≤ op.amount := hpos op (List.mem_cons_self _ _)
    cases op with
    | acquire t n =>
      simp only [SemOp.amount] at hop
      have hn : ¬ n ≤ 0 := by omega
      by_cases hle : n ≤ s.permits_
      · have hacq : s.acquire t n =
            ({ s with permits_ := s.permits_ - n }, Acquired.returned true) := by
          cases hf : s.isFair_ <;>
            simp [Semaphore.acquire, Semaphore.acquireFair, Semaphore.acquireUnfair, hc, hn,
              hle, hf]
        have h := ih { s with permits_ := s.permits_ - n } hc hq hpos'
        simp only [Semaphore.run, hacq, neverShort, hle, decide_True, Bool.true_and,
          countAcquire, List.replicate_succ]
        refine ⟨?_, ?_⟩
        · rw [h.1]
          constructor
          · intro hr r hmem
            rcases List.mem_cons.1 hmem with h1 | h1
            · rw [h1]
              intro hb
              cases hb
            · exact hr r h1
          · intro hr r hmem
            exact hr r (List.mem_cons_of_mem _ hmem)
        · intro hs
          have h2 := h.2 hs
          refine ⟨by rw [h2.1], ?_, h2.2.2⟩
          rw [h2.2.1]
          simp only [sumReleased, sumAcquired]
          ring
      · have hacq : (s.acquire t n).2 = Acquired.blocked := by
          cases hf : s.isFair_ <;>
            simp [Semaphore.acquire, Semaphore.acquireFair, Semaphore.acquireUnfair, hc, hn,
              hle, hf]
        have hns : neverShort s.permits_ (SemOp.acquire t n :: ops) = false := by
          simp [neverShort, hle]
        rw [hns]
        refine ⟨?_, fun h => by cases h⟩
        constructor
        · intro h
          cases h
        · intro hr
          exfalso
          apply hr (s.acquire t n).2
          · simp [Semaphore.run]
          · exact hacq
    | release n =>
      simp only [SemOp.amount] at hop
      have hn : ¬ n ≤ 0 := by omega
      have hrel : (s.release n).1 = { s with permits_ := s.permits_ + n } := by
        simp [Semaphore.release, hc, hn, hq, wake]
      have h := ih { s with permits_ := s.permits_ + n } hc hq hpos'
      simp only [Semaphore.run, hrel, neverShort, countAcquire]
      refine ⟨h.1, ?_⟩
      intro hs
      have h2 := h.2 hs
      refine ⟨h2.1, ?_, h2.2.2⟩
      rw [h2.2.1]
      simp only [sumReleased, sumAcquired]
      ring

/-- C1: on a semaphore constructed with p >= 0 permits, in either fairness
mode, and for every sequence of acquire(n) and release(m) calls with all
arguments >= 1: no acquire of the run blocks exactly when every acquire(n)
finds at least n permits left by the calls before it; and in that case there
is one outcome per acquire call, every one of them is "returned true", nobody
is queued, and the final permit count is p plus the sum of the released
amounts minus the sum of the acquired amounts. -/
theorem semaphore_no_block_permits (p : Int) (isFair : Bool) (ops : List SemOp)
    (hp : 0 ≤ p) (hpos : ∀ op ∈ ops, 1 ≤ op.amount) :
    (neverShort p ops = true ↔
        ∀ r ∈ ((Semaphore.new p isFair true).run ops).2, r ≠ Acquired.blocked) ∧
      (neverShort p ops = true →
        ((Semaphore.new p isFair true).run ops).2 =
          List.replicate (countAcquire ops) (Acquired.returned true) ∧
        ((Semaphore.new p isFair true).run ops).2.length = countAcquire ops ∧
        (∀ r ∈ ((Semaphore.new p isFair true).run ops).2, r = Acquired.returned true) ∧
        ((Semaphore.new p isFair true).run ops).1.fifo_ = [] ∧
        ((Semaphore.new p isFair true).run ops).1.permits_ =
          p + sumReleased ops - sumAcquired ops) := by
  have hc : (Semaphore.new p isFair true).isConstructed_ = true := by
    have : ¬ p < 0 := by omega
    simp [Semaphore.new, Semaphore.construct, this]
  have h := run_never_short_aux ops (Semaphore.new p isFair true) hc rfl hpos
  refine ⟨h.1, fun hs => ?_⟩
  have h2 := h.2 hs
  refine ⟨h2.1, run_outcomes_length ops _, ?_, h2.2.2, h2.2.1⟩
  intro r hr
  rw [h2.1] at hr
  exact (List.mem_replicate.1 hr).2

/-- Instance of C1: 2 permits, then release(3), acquire(4), acquire(1), in the
unfair and in the fair mode: both acquires return true and 0 permits are left;
an acquire(6) in place of acquire(4) would find the permits short. -/
theorem semaphore_no_block_permits_witness :
    ((Semaphore.new 2 false true).run
        [SemOp.release 3, SemOp.acquire 7 4, SemOp.acquire 8 1]).2 =
          [Acquired.returned true, Acquired.returned true] ∧
      ((Semaphore.new 2 false true).run
        [SemOp.release 3, SemOp.acquire 7 4, SemOp.acquire 8 1]).1.permits_ = 2 + 3 - (4 + 1) ∧
      ((Semaphore.new 2 true true).run
        [SemOp.release 3, SemOp.acquire 7 4, SemOp.acquire 8 1]).2 =
          [Acquired.returned true, Acquired.returned true] ∧
      neverShort 2 [SemOp.release 3, SemOp.acquire 7 6, SemOp.acquire 8 1] = false ∧
      ((Semaphore.new 2 false true).run
        [SemOp.release 3, SemOp.acquire 7 6, SemOp.acquire 8 1]).2 =
          [Acquired.blocked, Acquired.returned true] :=
  ⟨((semaphore_no_block_permits 2 false
      [SemOp.release 3, SemOp.acquire 7 4, SemOp.acquire 8 1] (by decide) (by decide)).2
      (by decide)).1,
    ((semaphore_no_block_permits 2 false
      [SemOp.release 3, SemOp.acquire 7 4, SemOp.acquire 8 1] (by decide) (by decide)).2
      (by decide)).2.2.2.2,
    ((semaphore_no_block_permits 2 true
      [SemOp.release 3, SemOp.acquire 7 4, SemOp.acquire 8 1] (by decide) (by decide)).2
      (by decide)).1,
    by decide, by decide⟩

/-- C3: on a valid semaphore, for every n <= 0, acquire(n) returns false and
release(n) returns, and after either call the object (permit count, wait
queue, flags) is exactly what it was; release(n) wakes nobody. -/
theorem semaphore_nonpositive_noop (s : Semaphore) (t : Thread) (n : Int)
    (hc : s.isConstructed_ = true) (hn : n ≤ 0) :
    s.acquire t n = (s, Acquired.returned false) ∧ s.release n = (s, []) ∧
      (s.acquire t n).1.permits_ = s.permits_ ∧ (s.acquire t n).1.fifo_ = s.fifo_ ∧
      (s.release n).1.permits_ = s.permits_ ∧ (s.release n).1.fifo_ = s.fifo_ := by
  have e1 : s.acquire t n = (s, Acquired.returned false) := by
    simp [Semaphore.acquire, hc, hn]
  have e2 : s.release n = (s, []) := by
    simp [Semaphore.release, hc, hn]
  rw [e1, e2]
  exact ⟨rfl, rfl, rfl, rfl, rfl, rfl⟩

/-- Instance of C3: a fair semaphore with 4 permits and one waiter, n = -2. -/
theorem semaphore_nonpositive_noop_witness :
    (Semaphore.mk true 4 true [⟨9, 6⟩]).acquire 3 (-2) =
        (Semaphore.mk true 4 true [⟨9, 6⟩], Acquired.returned false) ∧
      (Semaphore.mk true 4 true [⟨9, 6⟩]).release (-2) = (Semaphore.mk true 4 true [⟨9, 6⟩], []) ∧
      ((Semaphore.mk true 4 true [⟨9, 6⟩]).acquire 3 (-2)).1.permits_ = 4 ∧
      ((Semaphore.mk true 4 true [⟨9, 6⟩]).acquire 3 (-2)).1.fifo_ = [⟨9, 6⟩] ∧
      ((Semaphore.mk true 4 true [⟨9, 6⟩]).release (-2)).1.permits_ = 4 ∧
      ((Semaphore.mk true 4 true [⟨9, 6⟩]).release (-2)).1.fifo_ = [⟨9, 6⟩] :=
  semaphore_nonpositive_noop (Semaphore.mk true 4 true [⟨9, 6⟩]) 3 (-2) rfl (by decide)

/-- On an invalid semaphore every sequence of calls leaves the object as it is
and every acquire returns false. -/
theorem run_invalid_aux (ops : List SemOp) (s : Semaphore) (hc : s.isConstructed_ = false) :
    (s.run ops).1 = s ∧ (s.run ops).2.length = countAcquire ops ∧
      ∀ r ∈ (s.run ops).2, r = Acquired.returned false := by
  induction ops with
  | nil => simp [Semaphore.run, countAcquire]
  | cons op ops ih =>
    cases op with
    | acquire t n =>
      have e : s.acquire t n = (s, Acquired.returned false) := by
        simp [Semaphore.acquire, hc]
      simp only [Semaphore.run, e, countAcquire]
      refine ⟨ih.1, by simp [ih.2.1], ?_⟩
      intro r hr
      rcases List.mem_cons.1 hr with h1 | h1
      · exact h1
      · exact ih.2.2 r h1
    | release n =>
      have e : s.release n = (s, []) := by
        simp [Semaphore.release, hc]
      simp only [Semaphore.run, e, countAcquire]
      exact ih

/-- C4: a semaphore constructed with a negative initial permit count, in either
fairness mode, reports isConstructed() == false; on it acquire with any
argument returns false and release with any argument wakes nobody, both leaving
the object (permit count and wait queue included) unchanged, and the same holds
along every sequence of such calls. -/
theorem semaphore_invalid_noop (p : Int) (isFair storage : Bool) (hp : p < 0) :
    (Semaphore.new p isFair storage).isConstructed = false ∧
      (∀ t n, (Semaphore.new p isFair storage).acquire t n =
        (Semaphore.new p isFair storage, Acquired.returned false)) ∧
      (∀ n, (Semaphore.new p isFair storage).release n = (Semaphore.new p isFair storage, [])) ∧
      (∀ ops, ((Semaphore.new p isFair storage).run ops).1 = Semaphore.new p isFair storage ∧
        ((Semaphore.new p isFair storage).run ops).2.length = countAcquire ops ∧
        ∀ r ∈ ((Semaphore.new p isFair storage).run ops).2, r = Acquired.returned false) ∧
      (Semaphore.new p isFair storage).permits_ = p ∧
      (Semaphore.new p isFair storage).fifo_ = [] := by
  have hc : (Semaphore.new p isFair storage).isConstructed_ = false := by
    simp [Semaphore.new, Semaphore.construct, hp]
  refine ⟨hc, ?_, ?_, ?_, rfl, rfl⟩
  · intro t n
    simp [Semaphore.acquire, hc]
  · intro n
    simp [Semaphore.release, hc]
  · intro ops
    exact run_invalid_aux ops _ hc

/-- Instance of C4: the semaphore constructed by Semaphore(-1). -/
theorem semaphore_invalid_noop_witness :
    (Semaphore.new (-1) false true).isConstructed = false ∧
      (∀ t n, (Semaphore.new (-1) false true).acquire t n =
        (Semaphore.new (-1) false true, Acquired.returned false)) ∧
      (∀ n, (Semaphore.new (-1) false true).release n = (Semaphore.new (-1) false true, [])) ∧
      (∀ ops, ((Semaphore.new (-1) false true).run ops).1 = Semaphore.new (-1) false true ∧
        ((Semaphore.new (-1) false true).run ops).2.length = countAcquire ops ∧
        ∀ r ∈ ((Semaphore.new (-1) false true).run ops).2, r = Acquired.returned false) ∧
      (Semaphore.new (-1) false true).permits_ = -1 ∧
      (Semaphore.new (-1) false true).fifo_ = [] :=
  semaphore_invalid_noop (-1) false true (by decide)

/-- C5: on a valid semaphore isBlocked() is true exactly when the permit count
is <= 0; a semaphore constructed with 0 permits, in either fairness mode,
reports isBlocked() == true before any release, and after release(1), which
finds no waiter and wakes nobody, it reports isBlocked() == false. -/
theorem semaphore_isBlocked_iff (s : Semaphore) (hc : s.isConstructed_ = true) :
    (s.isBlocked = true ↔ s.permits_ ≤ 0) ∧
      (∀ isFair : Bool,
        (Semaphore.new 0 isFair true).isConstructed = true ∧
        (Semaphore.new 0 isFair true).isBlocked = true ∧
        ((Semaphore.new 0 isFair true).release 1).2 = [] ∧
        ((Semaphore.new 0 isFair true).release 1).1.permits_ = 1 ∧
        ((Semaphore.new 0 isFair true).release 1).1.isBlocked = false) := by
  constructor
  · simp [Semaphore.isBlocked, hc]
  · intro isFair
    cases isFair <;> decide

/-- Instance of C5: an unfair semaphore constructed with 2 permits. -/
theorem semaphore_isBlocked_iff_witness :
    ((Semaphore.new 2 false true).isBlocked = true ↔ (Semaphore.new 2 false true).permits_ ≤ 0) ∧
      (∀ isFair : Bool,
        (Semaphore.new 0 isFair true).isConstructed = true ∧
        (Semaphore.new 0 isFair true).isBlocked = true ∧
        ((Semaphore.new 0 isFair true).release 1).2 = [] ∧
        ((Semaphore.new 0 isFair true).release 1).1.permits_ = 1 ∧
        ((Semaphore.new 0 isFair true).release 1).1.isBlocked = false) :=
  semaphore_isBlocked_iff (Semaphore.new 2 false true) (by decide)

/-- The release pass splits the wait list into the woken leading segment and
the rest, debits exactly the woken requests, never overdraws the pool, and
stops in front of a request larger than what is left. -/
theorem releasePass_spec (q : List Node) :
    ∀ pool : Int,
      q = (releasePass pool q).1 ++ (releasePass pool q).2.2 ∧
      (releasePass pool q).2.1 = pool - ((releasePass pool q).1.map Node.permits).sum ∧
      (∀ k, k < (releasePass pool q).1.length →
        (((releasePass pool q).1.take (k + 1)).map Node.permits).sum ≤ pool) ∧
      (∀ w, (releasePass pool q).2.2.head? = some w → (releasePass pool q).2.1 < w.permits) := by
  induction q with
  | nil =>
    intro pool
    simp [releasePass]
  | cons c cs ih =>
    intro pool
    by_cases h : c.permits ≤ pool
    · have hs := ih (pool - c.permits)
      simp only [releasePass, h, if_true]
      refine ⟨?_, ?_, ?_, ?_⟩
      · simp only [List.cons_append]
        exact congrArg (List.cons c) hs.1
      · rw [hs.2.1]
        simp only [List.map_cons, List.sum_cons]
        ring
      · intro k hk
        cases k with
        | zero => simpa using h
        | succ k =>
          have hk' : k < (releasePass (pool - c.permits) cs).1.length := by
            simpa using hk
          have := hs.2.2.1 k hk'
          simp only [List.take_succ_cons, List.map_cons, List.sum_cons]
          omega
      · exact hs.2.2.2
    · simp only [releasePass, h, if_false]
      refine ⟨by simp, by simp, by simp, ?_⟩
      intro w hw
      simp only [List.head?_cons, Option.some.injEq] at hw
      subst hw
      omega

/-- C6: on a valid fair escalator release(n), n >= 1, adds n to the pool and
wakes a leading segment of the list of locked threads, in list order: every
woken node was covered by what the pool held after the nodes before it were
debited, the node left at the head (if any) asks for more than the pool now
holds, and the permit count afterwards is the previous count plus n minus the
woken nodes' requests. With an empty pool and waiters for 3, 5 and 2, release(5)
wakes only the first and leaves 5 and 2 queued, release(3) wakes exactly the
first, and a release(10) after that wakes both remaining waiters. -/
theorem escalator_fair_release (e : Escalator) (n : Int)
    (hc : e.isConstructed_ = true) (hf : e.isFair_ = true) (hn : 1 ≤ n) :
    (e.list_.lock = (e.release n).2 ++ (e.release n).1.list_.lock ∧
      (∀ k, k < (e.release n).2.length →
        ((((e.release n).2.take (k + 1)).map Node.permits).sum ≤ e.permits_ + n)) ∧
      (∀ w, (e.release n).1.list_.lock.head? = some w → (e.release n).1.permits_ < w.permits) ∧
      (e.release n).1.permits_ = e.permits_ + n - ((e.release n).2.map Node.permits).sum) ∧
    ((Escalator.mk true 0 true ⟨Node.illegal (-1), [], [Node.new 1 3, Node.new 2 5, Node.new 3 2]⟩
        ).release 5 =
      (Escalator.mk true 2 true ⟨Node.illegal (-1), [], [Node.new 2 5, Node.new 3 2]⟩,
        [Node.new 1 3])) ∧
    ((Escalator.mk true 0 true ⟨Node.illegal (-1), [], [Node.new 1 3, Node.new 2 5, Node.new 3 2]⟩
        ).release 3 =
      (Escalator.mk true 0 true ⟨Node.illegal (-1), [], [Node.new 2 5, Node.new 3 2]⟩,
        [Node.new 1 3])) ∧
    ((Escalator.mk true 0 true ⟨Node.illegal (-1), [], [Node.new 2 5, Node.new 3 2]⟩).release 10 =
      (Escalator.mk true 3 true ⟨Node.illegal (-1), [], []⟩, [Node.new 2 5, Node.new 3 2])) := by
  have hn0 : ¬ n ≤ 0 := by omega
  have hs := releasePass_spec e.list_.lock (e.permits_ + n)
  have e1 : e.release n =
      ({ e with permits_ := (releasePass (e.permits_ + n) e.list_.lock).2.1,
                list_ := { e.list_ with lock := (releasePass (e.permits_ + n) e.list_.lock).2.2 } },
        (releasePass (e.permits_ + n) e.list_.lock).1) := by
    simp [Escalator.release, hc, hf, hn0]
  refine ⟨?_, by decide, by decide, by decide⟩
  rw [e1]
  exact ⟨hs.1, hs.2.2.1, hs.2.2.2, hs.2.1⟩

/-- Instance of C6: empty pool, waiters for 3, 5 and 2, then release(5). -/
theorem escalator_fair_release_witness :
    (([Node.new 1 3, Node.new 2 5, Node.new 3 2] : List Node) =
        ((Escalator.mk true 0 true
          ⟨Node.illegal (-1), [], [Node.new 1 3, Node.new 2 5, Node.new 3 2]⟩).release 5).2 ++
        ((Escalator.mk true 0 true
          ⟨Node.illegal (-1), [], [Node.new 1 3, Node.new 2 5, Node.new 3 2]⟩).release 5
          ).1.list_.lock) ∧
      ((Escalator.mk true 0 true
          ⟨Node.illegal (-1), [], [Node.new 1 3, Node.new 2 5, Node.new 3 2]⟩).release 5
          ).1.permits_ = 0 + 5 - 3 :=
  ⟨(escalator_fair_release (Escalator.mk true 0 true
      ⟨Node.illegal (-1), [], [Node.new 1 3, Node.new 2 5, Node.new 3 2]⟩) 5
      rfl rfl (by decide)).1.1, by decide⟩

/-- Removing a target whose thread first occurs at `x` excises exactly `x`. -/
theorem removeNode_split (l₁ : List Node) (x target : Node) (l₂ : List Node)
    (hx : x.thread_ = target.thread_) (h₁ : ∀ y ∈ l₁, y.thread_ ≠ target.thread_) :
    Escalator.removeNode (l₁ ++ x :: l₂) target = (true, l₁ ++ l₂) := by
  induction l₁ with
  | nil => simp [Escalator.removeNode, Node.operatorEq, hx]
  | cons y ys ih =>
    have hy : y.thread_ ≠ target.thread_ := h₁ y (List.mem_cons_self _ _)
    have ih' := ih (fun z hz => h₁ z (List.mem_cons_of_mem _ hz))
    simp [Escalator.removeNode, Node.operatorEq, hy, ih']

/-- A list holding a node of the target thread splits at its first such node. -/
theorem removeNode_present (l : List Node) (target : Node)
    (h : ∃ x ∈ l, x.thread_ = target.thread_) :
    ∃ l₁ x l₂, l = l₁ ++ x :: l₂ ∧ x.thread_ = target.thread_ ∧
      (∀ y ∈ l₁, y.thread_ ≠ target.thread_) := by
  induction l with
  | nil => simp at h
  | cons y ys ih =>
    by_cases hy : y.thread_ = target.thread_
    · exact ⟨[], y, ys, rfl, hy, by simp⟩
    · obtain ⟨x, hx, hxt⟩ := h
      have hx' : x ∈ ys := by
        rcases List.mem_cons.1 hx with h1 | h1
        · exact absurd (h1 ▸ hxt) hy
        · exact h1
      obtain ⟨l₁, z, l₂, he, hz, hl⟩ := ih ⟨x, hx', hxt⟩
      refine ⟨y :: l₁, z, l₂, by simp [he], hz, ?_⟩
      intro w hw
      rcases List.mem_cons.1 hw with h1 | h1
      · exact h1 ▸ hy
      · exact hl w h1

/-- C7: for three waiters a, b, c with pairwise distinct threads, removeNode
with any one of them as target returns true and leaves exactly the other two
in their original order. In general, if the list holds a node of the target's
thread, removeNode returns true and excises the first such node: the list is
l1 ++ x :: l2 with x of the target's thread and none in l1, the result is
l1 ++ l2, one waiter fewer, the rest in their order, wherever x stood. -/
theorem removeNode_keeps_order (a b c : Node)
    (hab : a.thread_ ≠ b.thread_) (hac : a.thread_ ≠ c.thread_) (hbc : b.thread_ ≠ c.thread_) :
    Escalator.removeNode [a, b, c] a = (true, [b, c]) ∧
      Escalator.removeNode [a, b, c] b = (true, [a, c]) ∧
      Escalator.removeNode [a, b, c] c = (true, [a, b]) ∧
      (∀ (l : List Node) (target : Node), (∃ x ∈ l, x.thread_ = target.thread_) →
        ∃ l₁ x l₂, l = l₁ ++ x :: l₂ ∧ x.thread_ = target.thread_ ∧
          (∀ y ∈ l₁, y.thread_ ≠ target.thread_) ∧
          Escalator.removeNode l target = (true, l₁ ++ l₂) ∧
          (Escalator.removeNode l target).2.length + 1 = l.length ∧
          List.Sublist (Escalator.removeNode l target).2 l) := by
  refine ⟨?_, ?_, ?_, ?_⟩
  · exact removeNode_split [] a a [b, c] rfl (by simp)
  · exact removeNode_split [a] b b [c] rfl (by simpa using hab)
  · exact removeNode_split [a, b] c c [] rfl (by simpa using ⟨hac, hbc⟩)
  · intro l target h
    obtain ⟨l₁, x, l₂, he, hx, hl⟩ := removeNode_present l target h
    have hr := removeNode_split l₁ x target l₂ hx hl
    refine ⟨l₁, x, l₂, he, hx, hl, he ▸ hr, ?_, ?_⟩
    · rw [he, hr]
      simp only [List.length_append, List.length_cons]
      omega
    · rw [he, hr]
      exact List.Sublist.append (List.Sublist.refl l₁) (List.sublist_cons_self x l₂)

/-- Instance of C7: the waiters of threads 1, 2, 3 asking for 3, 5, 2. -/
theorem removeNode_keeps_order_witness :
    Escalator.removeNode [Node.new 1 3, Node.new 2 5, Node.new 3 2] (Node.new 1 3) =
        (true, [Node.new 2 5, Node.new 3 2]) ∧
      Escalator.removeNode [Node.new 1 3, Node.new 2 5, Node.new 3 2] (Node.new 2 5) =
        (true, [Node.new 1 3, Node.new 3 2]) ∧
      Escalator.removeNode [Node.new 1 3, Node.new 2 5, Node.new 3 2] (Node.new 3 2) =
        (true, [Node.new 1 3, Node.new 2 5]) :=
  ⟨(removeNode_keeps_order (Node.new 1 3) (Node.new 2 5) (Node.new 3 2)
      (by decide) (by decide) (by decide)).1,
    (removeNode_keeps_order (Node.new 1 3) (Node.new 2 5) (Node.new 3 2)
      (by decide) (by decide) (by decide)).2.1,
    (removeNode_keeps_order (Node.new 1 3) (Node.new 2 5) (Node.new 3 2)
      (by decide) (by decide) (by decide)).2.2.1⟩

/-- C8: two escalator nodes are equal (operator ==) exactly when they refer to
the same thread, whatever their permits: nodes of one thread with different
permits are equal, nodes of different threads with equal permits are not;
operator != is the negation of operator ==; == is reflexive, symmetric and
transitive; a copy of a node and a node assigned from it are that node, so
they are equal to it and carry its permits. -/
theorem node_equality (a b c : Node) :
    (a.operatorEq b = true ↔ a.thread_ = b.thread_) ∧
      (∀ (t : Thread) (p q : Int), (Node.new t p).operatorEq (Node.new t q) = true) ∧
      (∀ (t u : Thread) (p : Int), t ≠ u → (Node.new t p).operatorEq (Node.new u p) = false) ∧
      a.operatorNe b = !a.operatorEq b ∧
      a.operatorEq a = true ∧
      a.operatorEq b = b.operatorEq a ∧
      (a.operatorEq b = true → b.operatorEq c = true → a.operatorEq c = true) ∧
      (a.copy = a ∧ a.copy.operatorEq a = true ∧ a.copy.permits = a.permits) ∧
      (b.assign a = a ∧ (b.assign a).operatorEq a = true ∧ (b.assign a).permits = a.permits) := by
  refine ⟨?_, ?_, ?_, ?_, ?_, ?_, ?_, ?_, ?_⟩
  · simp [Node.operatorEq]
  · intro t p q
    simp [Node.operatorEq, Node.new]
  · intro t u p htu
    simp [Node.operatorEq, Node.new, htu]
  · by_cases h : a.thread_ = b.thread_ <;> simp [Node.operatorEq, Node.operatorNe, h]
  · simp [Node.operatorEq]
  · by_cases h : a.thread_ = b.thread_
    · simp [Node.operatorEq, h]
    · have h' : ¬ b.thread_ = a.thread_ := fun e => h e.symm
      simp [Node.operatorEq, h, h']
  · intro h1 h2
    have e1 : a.thread_ = b.thread_ := by simpa [Node.operatorEq] using h1
    have e2 : b.thread_ = c.thread_ := by simpa [Node.operatorEq] using h2
    simp [Node.operatorEq, e1, e2]
  · exact ⟨rfl, by simp [Node.operatorEq, Node.copy], rfl⟩
  · exact ⟨rfl, by simp [Node.operatorEq, Node.assign], rfl⟩

/-- C9: on a valid global toggle and from every state s of the global interrupt
enable bit, disable() returns the state that held just before the call and
leaves the interrupts disabled; in s1 = disable(); s2 = disable(); enable(s2);
enable(s1) the interrupts are disabled after each of the first three calls and
the state after the last call is s again; enable(false) leaves the bit as it
is, so it never turns the interrupts on. -/
theorem global_nested_roundtrip (g : Global) (s : Bool) (hc : g.isConstructed_ = true) :
    (g.disable s).1 = s ∧ (g.disable s).2 = false ∧
      (g.disable (g.disable s).2).1 = (g.disable s).2 ∧
      (g.disable (g.disable s).2).2 = false ∧
      g.enable (g.disable (g.disable s).2).1 (g.disable (g.disable s).2).2 = false ∧
      g.enable (g.disable s).1
        (g.enable (g.disable (g.disable s).2).1 (g.disable (g.disable s).2).2) = s ∧
      (∀ gie, (g.disable gie).1 = gie ∧ (g.disable gie).2 = false) ∧
      (∀ gie, g.enable false gie = gie) ∧
      g.enable false false = false := by
  have hd : ∀ gie, g.disable gie = (gie, false) := by
    intro gie
    simp [Global.disable, hc]
  have he : ∀ status gie, g.enable status gie = if status then true else gie := by
    intro status gie
    simp [Global.enable, hc]
  refine ⟨by simp [hd], by simp [hd], by simp [hd], by simp [hd], by simp [hd, he], ?_,
    fun gie => by simp [hd], fun gie => by simp [he], by simp [he]⟩
  cases s <;> simp [hd, he]

/-- Instance of C9: a valid toggle, interrupts enabled at the start. -/
theorem global_nested_roundtrip_witness :
    ((Global.mk true).disable true).1 = true ∧ ((Global.mk true).disable true).2 = false ∧
      ((Global.mk true).disable ((Global.mk true).disable true).2).1 =
        ((Global.mk true).disable true).2 ∧
      ((Global.mk true).disable ((Global.mk true).disable true).2).2 = false ∧
      (Global.mk true).enable ((Global.mk true).disable ((Global.mk true).disable true).2).1
        ((Global.mk true).disable ((Global.mk true).disable true).2).2 = false ∧
      (Global.mk true).enable ((Global.mk true).disable true).1
        ((Global.mk true).enable ((Global.mk true).disable ((Global.mk true).disable true).2).1
          ((Global.mk true).disable ((Global.mk true).disable true).2).2) = true ∧
      (∀ gie, ((Global.mk true).disable gie).1 = gie ∧ ((Global.mk true).disable gie).2 = false) ∧
      (∀ gie, (Global.mk true).enable false gie = gie) ∧
      (Global.mk true).enable false false = false :=
  global_nested_roundtrip (Global.mk true) true rfl

/-- C10: TimerInterrupt::isConstructed() is true exactly when both base
resources are constructed. TimerInterrupt::construct(handler) returns false,
with the interrupt driver untouched, whenever one of the base resources is not
constructed and whenever the timer driver's isInterrupting() is false;
otherwise a NULL handler gives true with the interrupt driver untouched,
whatever its setHandler would do, and a non-NULL handler gives exactly the
result of setHandler(handler, s), s the timer driver's interrupt source. -/
theorem timerInterrupt_construct {D : Type} (o : TimerInterrupt D) (handler : Option Task)
    (d : D) :
    (o.isConstructed = true ↔
        (o.resIntIsConstructed = true ∧ o.resTimIsConstructed = true)) ∧
      ((o.resIntIsConstructed = false ∨ o.resTimIsConstructed = false) →
        o.construct handler d = (false, d)) ∧
      (o.isInterrupting = false → o.construct handler d = (false, d)) ∧
      (o.resIntIsConstructed = true → o.resTimIsConstructed = true →
        o.isInterrupting = true →
          o.construct none d = (true, d) ∧
          ∀ h : Task, o.construct (some h) d = o.setHandler d h o.getInterrupSource) := by
  refine ⟨?_, ?_, ?_, ?_⟩
  · cases h1 : o.resIntIsConstructed <;> cases h2 : o.resTimIsConstructed <;>
      simp [TimerInterrupt.isConstructed, h1, h2]
  · rintro (h | h)
    · simp [TimerInterrupt.construct, TimerInterrupt.isConstructed, h]
    · cases h1 : o.resIntIsConstructed <;>
        simp [TimerInterrupt.construct, TimerInterrupt.isConstructed, h, h1]
  · intro h
    cases h1 : o.isConstructed <;> simp [TimerInterrupt.construct, h, h1]
  · intro h1 h2 h3
    constructor
    · simp [TimerInterrupt.construct, TimerInterrupt.isConstructed, h1, h2, h3]
    · intro h
      simp [TimerInterrupt.construct, TimerInterrupt.isConstructed, h1, h2, h3]

/-- The switch over the index selects timer `i` exactly for the index `i`. -/
theorem timerOf_eq_some (index : Int) (i : Fin 3) :
    timerOf index = some i ↔ index = (i.val : Int) := by
  unfold timerOf
  by_cases h0 : index = 0
  · subst h0
    have : ((0 : Fin 3) = i) ↔ ((0 : Int) = (i.val : Int)) := by
      revert i; decide
    simpa using this
  · by_cases h1 : index = 1
    · subst h1
      have : ((1 : Fin 3) = i) ↔ ((1 : Int) = (i.val : Int)) := by
        revert i; decide
      simpa using this
    · by_cases h2 : index = 2
      · subst h2
        have : ((2 : Fin 3) = i) ↔ ((2 : Int) = (i.val : Int)) := by
          revert i; decide
        simpa using this
      · simp only [h0, h1, h2, if_false]
        constructor
        · intro h; cases h
        · intro h
          exfalso
          have hi : i.val < 3 := i.isLt
          omega

/-- The switch takes its default case exactly for an index outside 0, 1, 2. -/
theorem timerOf_eq_none (index : Int) :
    timerOf index = none ↔ (index ≠ 0 ∧ index ≠ 1 ∧ index ≠ 2) := by
  unfold timerOf
  by_cases h0 : index = 0
  · simp [h0]
  · by_cases h1 : index = 1
    · simp [h1]
    · by_cases h2 : index = 2
      · simp [h2]
      · simp [h0, h1, h2]

/-- The call `construct(index)` returns true exactly when the driver is
initialized, the index selects a timer and that timer is not locked. -/
theorem construct_true_iff (hw : RegTimer) (o : TimerController) (d : Driver) (index : Int) :
    (o.construct hw d index).2.2 = true ↔
      (d.isInitialized_ = IS_INITIALIZED ∧ ∃ i, timerOf index = some i ∧ d.lock_ i = false) := by
  unfold TimerController.construct
  by_cases hi : d.isInitialized_ = IS_INITIALIZED
  · cases ht : timerOf index with
    | none => simp [hi, globalEnableRet]
    | some i =>
      cases hl : d.lock_ i <;> simp [hi, hl, globalEnableRet, globalDisable]
  · simp [hi]

/-- A call `construct(index)` that returns false leaves the object, the lock
table, the registers, the global interrupt enable bit and the static members
as they were. -/
theorem construct_false_frame (hw : RegTimer) (o : TimerController) (d : Driver) (index : Int)
    (h : (o.construct hw d index).2.2 = false) :
    (o.construct hw d index).2.1 = o ∧ (o.construct hw d index).1.lock_ = d.lock_ ∧
      (o.construct hw d index).1.regs = d.regs ∧ (o.construct hw d index).1.gie = d.gie ∧
      (o.construct hw d index).1.isInitialized_ = d.isInitialized_ ∧
      (o.construct hw d index).1.config_ = d.config_ := by
  unfold TimerController.construct at h ⊢
  by_cases hi : d.isInitialized_ = IS_INITIALIZED
  · cases ht : timerOf index with
    | none =>
      cases hg : d.gie <;> simp [hi, globalEnableRet, globalEnable, globalDisable, hg]
    | some i =>
      cases hl : d.lock_ i
      · simp [hi, ht, hl, globalEnableRet, globalDisable] at h
      · cases hg : d.gie <;> simp [hi, hl, globalEnableRet, globalEnable, globalDisable, hg]
  · simp [hi]

/-- A call `construct(index)` that returns true stores the index and the
register pointer in the object, constructs the register block, sets the lock
entry of the timer and leaves everything else as it was. -/
theorem construct_true_frame (hw : RegTimer) (o : TimerController) (d : Driver) (index : Int)
    (i : Fin 3) (ht : timerOf index = some i)
    (h : (o.construct hw d index).2.2 = true) :
    (o.construct hw d index).2.1 = { o with regTim_ := some i, index_ := index } ∧
      (o.construct hw d index).1.lock_ = Function.update d.lock_ i true ∧
      (o.construct hw d index).1.regs = Function.update d.regs i (hw.ctor (d.regs i)) ∧
      (o.construct hw d index).1.gie = d.gie ∧
      (o.construct hw d index).1.isInitialized_ = d.isInitialized_ ∧
      (o.construct hw d index).1.config_ = d.config_ := by
  have hiff := (construct_true_iff hw o d index).1 h
  obtain ⟨hi, j, hj, hl⟩ := hiff
  rw [ht] at hj
  cases hj
  unfold TimerController.construct
  cases hg : d.gie <;>
    simp [hi, ht, hl, globalEnableRet, globalEnable, globalDisable, writeLock, placeTimer, hg]

/-- A property of the three lock entries holds for all of them when it holds
for the entries 0, 1 and 2. -/
theorem forall_fin3 (P : Fin 3 → Prop) (h0 : P 0) (h1 : P 1) (h2 : P 2) : ∀ i, P i := by
  intro i
  fin_cases i
  · exact h0
  · exact h1
  · exact h2

/-- The constructor `TimerController(index)` either fails, leaving an invalid
object with index -1 and the driver's lock table, registers and interrupt bit
as they were, or takes the unlocked timer the index selects. -/
theorem newIndex_cases (hw : RegTimer) (d : Driver) (index : Int) :
    ((TimerController.newIndex hw d index).2 =
          { isConstructed_ := false, index_ := -1, regTim_ := none } ∧
        (TimerController.newIndex hw d index).1.lock_ = d.lock_ ∧
        (TimerController.newIndex hw d index).1.regs = d.regs ∧
        (TimerController.newIndex hw d index).1.gie = d.gie ∧
        (TimerController.newIndex hw d index).1.isInitialized_ = d.isInitialized_ ∧
        ¬ (d.isInitialized_ = IS_INITIALIZED ∧ ∃ i, timerOf index = some i ∧ d.lock_ i = false)) ∨
      (∃ i : Fin 3, d.isInitialized_ = IS_INITIALIZED ∧ timerOf index = some i ∧
        d.lock_ i = false ∧
        (TimerController.newIndex hw d index).2 =
          { isConstructed_ := true, index_ := index, regTim_ := some i } ∧
        (TimerController.newIndex hw d index).1.lock_ = Function.update d.lock_ i true ∧
        (TimerController.newIndex hw d index).1.regs =
          Function.update d.regs i (hw.ctor (d.regs i)) ∧
        (TimerController.newIndex hw d index).1.gie = d.gie ∧
        (TimerController.newIndex hw d index).1.isInitialized_ = d.isInitialized_) := by
  cases h : (TimerController.initial.construct hw d index).2.2 with
  | false =>
    left
    have hf := construct_false_frame hw TimerController.initial d index h
    have hn : ¬ (d.isInitialized_ = IS_INITIALIZED ∧
        ∃ i, timerOf index = some i ∧ d.lock_ i = false) := by
      intro hc
      have := (construct_true_iff hw TimerController.initial d index).2 hc
      rw [h] at this
      cases this
    refine ⟨?_, hf.2.1, hf.2.2.1, hf.2.2.2.1, hf.2.2.2.2.1, hn⟩
    simp only [TimerController.newIndex, TimerController.setConstruct, h, hf.1]
    rfl
  | true =>
    right
    obtain ⟨hi, i, ht, hl⟩ := (construct_true_iff hw TimerController.initial d index).1 h
    have hf := construct_true_frame hw TimerController.initial d index i ht h
    refine ⟨i, hi, ht, hl, ?_, hf.2.1, hf.2.2.1, hf.2.2.2.1, hf.2.2.2.2.1⟩
    simp only [TimerController.newIndex, TimerController.setConstruct, h, hf.1]

/-- The default constructor either fails, which it does exactly when the
driver is not initialized or all three timers are locked, leaving an invalid
object with index -1 and the lock table as it was, or takes the lowest-numbered
unlocked timer. -/
theorem new_cases (hw : RegTimer) (d : Driver) :
    ((TimerController.new hw d).2 =
          { isConstructed_ := false, index_ := -1, regTim_ := none } ∧
        (TimerController.new hw d).1.lock_ = d.lock_ ∧
        (TimerController.new hw d).1.regs = d.regs ∧
        (TimerController.new hw d).1.gie = d.gie ∧
        (TimerController.new hw d).1.isInitialized_ = d.isInitialized_ ∧
        (d.isInitialized_ ≠ IS_INITIALIZED ∨ ∀ i, d.lock_ i = true)) ∨
      (∃ i : Fin 3, d.isInitialized_ = IS_INITIALIZED ∧ d.lock_ i = false ∧
        (∀ j, j < i → d.lock_ j = true) ∧
        (TimerController.new hw d).2 =
          { isConstructed_ := true, index_ := (i.val : Int), regTim_ := some i } ∧
        (TimerController.new hw d).1.lock_ = Function.update d.lock_ i true ∧
        (TimerController.new hw d).1.regs = Function.update d.regs i (hw.ctor (d.regs i)) ∧
        (TimerController.new hw d).1.gie = d.gie ∧
        (TimerController.new hw d).1.isInitialized_ = d.isInitialized_) := by
  by_cases hi : d.isInitialized_ = IS_INITIALIZED
  · cases l0 : d.lock_ 0
    · right
      have key : ∀ j : Fin 3, ¬ j < 0 := by decide
      refine ⟨0, hi, l0, fun j hj => absurd hj (key j), ?_⟩
      cases hg : d.gie <;>
        simp [TimerController.new, RESOURCES_NUMBER, TimerController.newLoop,
          TimerController.construct, TimerController.setConstruct, TimerController.initial,
          timerOf, globalDisable, globalEnableRet, globalEnable, writeLock, placeTimer,
          hi, l0, hg]
    · cases l1 : d.lock_ 1
      · right
        refine ⟨1, hi, l1, ?_, ?_⟩
        · intro j hj
          have : j = 0 := by revert j; decide
          rw [this]; exact l0
        · cases hg : d.gie <;>
            simp [TimerController.new, RESOURCES_NUMBER, TimerController.newLoop,
              TimerController.construct, TimerController.setConstruct, TimerController.initial,
              timerOf, globalDisable, globalEnableRet, globalEnable, writeLock, placeTimer,
              hi, l0, l1, hg]
      · cases l2 : d.lock_ 2
        · right
          refine ⟨2, hi, l2, ?_, ?_⟩
          · intro j hj
            have : j = 0 ∨ j = 1 := by revert j; decide
            rcases this with h | h <;> rw [h] <;> assumption
          · cases hg : d.gie <;>
              simp [TimerController.new, RESOURCES_NUMBER, TimerController.newLoop,
                TimerController.construct, TimerController.setConstruct,
                TimerController.initial, timerOf, globalDisable, globalEnableRet, globalEnable,
                writeLock, placeTimer, hi, l0, l1, l2, hg]
        · left
          refine ⟨?_, ?_, ?_, ?_, ?_, Or.inr (forall_fin3 _ l0 l1 l2)⟩ <;>
          cases hg : d.gie <;>
            simp [TimerController.new, RESOURCES_NUMBER, TimerController.newLoop,
              TimerController.construct, TimerController.setConstruct,
              TimerController.initial, timerOf, globalDisable, globalEnableRet, globalEnable,
              writeLock, placeTimer, hi, l0, l1, l2, hg]
  · left
    refine ⟨?_, ?_, ?_, ?_, ?_, Or.inl hi⟩ <;>
      simp [TimerController.new, RESOURCES_NUMBER, TimerController.newLoop,
        TimerController.construct, TimerController.setConstruct, TimerController.initial, hi]

/-- C11: on a TimerController whose validity flag is false, setCount and
setPeriod with every argument, setPeriod(), start and stop leave the driver as
it was, so the counter, period and control registers of all timers are
unchanged, and the destructor leaves the driver as it was, so the lock table
and the global interrupt enable bit are unchanged. -/
theorem timer_invalid_noop (hw : RegTimer) (o : TimerController) (d : Driver)
    (hc : o.isConstructed_ = false) :
    (∀ count, o.setCount d count = d) ∧ (∀ us, o.setPeriod d us = d) ∧
      o.setPeriodDefault d = d ∧ o.start hw d = d ∧ o.stop d = d ∧
      o.destroy d = (d, o) ∧
      (∀ count, (o.setCount d count).regs = d.regs) ∧
      (∀ us, (o.setPeriod d us).regs = d.regs) ∧
      (o.start hw d).regs = d.regs ∧ (o.stop d).regs = d.regs ∧
      (o.destroy d).1.lock_ = d.lock_ ∧ (o.destroy d).1.gie = d.gie := by
  have h1 : ∀ count, o.setCount d count = d := by
    intro count; simp [TimerController.setCount, hc]
  have h2 : ∀ us, o.setPeriod d us = d := by
    intro us; simp [TimerController.setPeriod, hc]
  have h3 : o.setPeriodDefault d = d := by simp [TimerController.setPeriodDefault, hc]
  have h4 : o.start hw d = d := by simp [TimerController.start, hc]
  have h5 : o.stop d = d := by simp [TimerController.stop, hc]
  have h6 : o.destroy d = (d, o) := by simp [TimerController.destroy, hc]
  refine ⟨h1, h2, h3, h4, h5, h6, ?_, ?_, ?_, ?_, ?_, ?_⟩
  · intro count; rw [h1]
  · intro us; rw [h2]
  · rw [h4]
  · rw [h5]
  · rw [h6]
  · rw [h6]

/-- Instance of C11: the controller TimerController(1) built before the driver
is initialized, which is invalid. -/
theorem timer_invalid_noop_witness :
    (∀ count, (TimerController.newIndex exampleHw coldDriver 1).2.setCount coldDriver count =
        coldDriver) ∧
      (TimerController.newIndex exampleHw coldDriver 1).2.stop coldDriver = coldDriver ∧
      (TimerController.newIndex exampleHw coldDriver 1).2.destroy coldDriver =
        (coldDriver, (TimerController.newIndex exampleHw coldDriver 1).2) :=
  ⟨(timer_invalid_noop exampleHw (TimerController.newIndex exampleHw coldDriver 1).2
      coldDriver (by decide)).1,
    (timer_invalid_noop exampleHw (TimerController.newIndex exampleHw coldDriver 1).2
      coldDriver (by decide)).2.2.2.2.1,
    (timer_invalid_noop exampleHw (TimerController.newIndex exampleHw coldDriver 1).2
      coldDriver (by decide)).2.2.2.2.2.1⟩

/-- C12: on every TimerController whose validity flag is false, whatever its
index and register pointer and whatever the driver state at the time of the
call, getCount() and getPeriod() return 0 and getIndex() returns -1; and
interrupSource(), which reads the index alone, returns -1 whenever the index
is -1, which it is after every failed construction: a controller whose
construction failed, by TimerController(index) for any index or by
TimerController(), in any state of the driver, answers 0, 0, -1 and -1. -/
theorem timer_invalid_getters (hw : RegTimer) (o : TimerController) (d d' : Driver)
    (index : Int) (hc : o.isConstructed_ = false) :
    (o.getCount d' = 0 ∧ o.getPeriod d' = 0 ∧ o.getIndex = -1) ∧
      (o.index_ = -1 → o.interrupSource = -1) ∧
      ((TimerController.newIndex hw d index).2.isConstructed_ = false →
        (TimerController.newIndex hw d index).2.index_ = -1 ∧
        (TimerController.newIndex hw d index).2.getCount d' = 0 ∧
        (TimerController.newIndex hw d index).2.getPeriod d' = 0 ∧
        (TimerController.newIndex hw d index).2.getIndex = -1 ∧
        (TimerController.newIndex hw d index).2.interrupSource = -1) ∧
      ((TimerController.new hw d).2.isConstructed_ = false →
        (TimerController.new hw d).2.index_ = -1 ∧
        (TimerController.new hw d).2.getCount d' = 0 ∧
        (TimerController.new hw d).2.getPeriod d' = 0 ∧
        (TimerController.new hw d).2.getIndex = -1 ∧
        (TimerController.new hw d).2.interrupSource = -1) := by
  refine ⟨⟨?_, ?_, ?_⟩, ?_, ?_, ?_⟩
  · simp [TimerController.getCount, hc]
  · simp [TimerController.getPeriod, hc]
  · simp [TimerController.getIndex, hc]
  · intro hi
    simp [TimerController.interrupSource, hi]
  · intro h
    rcases newIndex_cases hw d index with hf | ⟨i, _, _, _, ho, _⟩
    · rw [hf.1]
      exact ⟨rfl, rfl, rfl, rfl, by decide⟩
    · rw [ho] at h
      cases h
  · intro h
    rcases new_cases hw d with hf | ⟨i, _, _, _, ho, _⟩
    · rw [hf.1]
      exact ⟨rfl, rfl, rfl, rfl, by decide⟩
    · rw [ho] at h
      cases h

/-- Instance of C12: an object with the flag false that holds index 1 and
points at the registers of timer 1, whose counter holds 33 and whose period
holds 0xFFFFFFFF: the getters answer 0, 0 and -1, not the register values nor
the index. -/
theorem timer_invalid_getters_witness :
    (((exampleTimer.2.setCount (exampleTimer.2.setPeriod exampleTimer.1 0) 33).regs 1).cnt = 33 ∧
        ((exampleTimer.2.setCount (exampleTimer.2.setPeriod exampleTimer.1 0) 33).regs 1).prd =
          4294967295 ∧
        (exampleTimer.2.setConstruct false).regTim_ = some 1 ∧
        (exampleTimer.2.setConstruct false).index_ = 1) ∧
      (exampleTimer.2.setConstruct false).getCount
        (exampleTimer.2.setCount (exampleTimer.2.setPeriod exampleTimer.1 0) 33) = 0 ∧
      (exampleTimer.2.setConstruct false).getPeriod
        (exampleTimer.2.setCount (exampleTimer.2.setPeriod exampleTimer.1 0) 33) = 0 ∧
      (exampleTimer.2.setConstruct false).getIndex = -1 :=
  ⟨by decide,
    (timer_invalid_getters exampleHw (exampleTimer.2.setConstruct false) coldDriver
      (exampleTimer.2.setCount (exampleTimer.2.setPeriod exampleTimer.1 0) 33) 7 rfl).1⟩

/-- C13 (as stated, refuted): the controller TimerController(7), whose index
selects no timer, has the validity flag false, and isInterrupting() returns
true on it, not false. -/
theorem timer_invalid_isInterrupting_true :
    (TimerController.newIndex exampleHw warmDriver 7).2.isConstructed_ = false ∧
      (TimerController.newIndex exampleHw warmDriver 7).2.isInterrupting = true ∧
      ¬ (∀ o : TimerController, o.isConstructed_ = false → o.isInterrupting = false) := by
  refine ⟨by decide, rfl, ?_⟩
  intro h
  have := h (TimerController.newIndex exampleHw warmDriver 7).2 (by decide)
  simp [TimerController.isInterrupting] at this

/-- C13 (amended): isInterrupting() returns true on every TimerController,
whatever its validity flag, its index and the way it was constructed: the
answer is a constant of the timer hardware and does not report validity. -/
theorem timer_isInterrupting_const (hw : RegTimer) (d : Driver) (index : Int)
    (o : TimerController) :
    o.isInterrupting = true ∧
      (TimerController.newIndex hw d index).2.isInterrupting = true ∧
      (TimerController.new hw d).2.isInterrupting = true :=
  ⟨rfl, rfl, rfl⟩

/-- The driver initialized flag value is not the value `deinit` stores. -/
theorem IS_INITIALIZED_ne_zero : (0 : Int) ≠ IS_INITIALIZED := by
  decide

/-- C14: TimerController(index) is successfully constructed if and only if the
driver is initialized, index is 0, 1 or 2 and that timer is not locked. On
success getIndex() returns index, lock_[index] is true and the other lock
entries are unchanged; on failure the lock table is unchanged, getIndex()
returns -1 and the flag is still false when the destructor has run. The driver
is initialized after init, which returns true and unlocks the three timers, and
not initialized after deinit. -/
theorem timer_newIndex_iff (hw : RegTimer) (d : Driver) (index : Int) :
    ((TimerController.newIndex hw d index).2.isConstructed_ = true ↔
        (d.isInitialized_ = IS_INITIALIZED ∧
          ∃ i : Fin 3, index = (i.val : Int) ∧ d.lock_ i = false)) ∧
      (∀ i : Fin 3, index = (i.val : Int) →
        (TimerController.newIndex hw d index).2.isConstructed_ = true →
          (TimerController.newIndex hw d index).2.getIndex = index ∧
          (TimerController.newIndex hw d index).1.lock_ i = true ∧
          ∀ j, j ≠ i → (TimerController.newIndex hw d index).1.lock_ j = d.lock_ j) ∧
      ((TimerController.newIndex hw d index).2.isConstructed_ = false →
          (TimerController.newIndex hw d index).1.lock_ = d.lock_ ∧
          (TimerController.newIndex hw d index).2.getIndex = -1 ∧
          ∀ d', ((TimerController.newIndex hw d index).2.destroy d').2.isConstructed_ = false) ∧
      (∀ config, (TimerController.init hw d config).1 = true ∧
          (TimerController.init hw d config).2.isInitialized_ = IS_INITIALIZED ∧
          ∀ i, (TimerController.init hw d config).2.lock_ i = false) ∧
      (TimerController.deinit d).isInitialized_ ≠ IS_INITIALIZED := by
  refine ⟨?_, ?_, ?_, ?_, IS_INITIALIZED_ne_zero⟩
  · rcases newIndex_cases hw d index with hc | ⟨i, hi, ht, hl, ho, _⟩
    · rw [hc.1]
      constructor
      · intro h; cases h
      · rintro ⟨hi, i, hx, hl⟩
        exact absurd ⟨hi, i, (timerOf_eq_some index i).2 hx, hl⟩ hc.2.2.2.2.2
    · rw [ho]
      exact ⟨fun _ => ⟨hi, i, (timerOf_eq_some index i).1 ht, hl⟩, fun _ => rfl⟩
  · intro i hx hok
    rcases newIndex_cases hw d index with hc | ⟨k, hi, ht, hl, ho, hlock, _⟩
    · rw [hc.1] at hok
      cases hok
    · have hk : k = i := by
        have := (timerOf_eq_some index i).2 hx
        rw [ht] at this
        exact Option.some.inj this
      subst hk
      rw [ho, hlock]
      refine ⟨rfl, by simp, ?_⟩
      intro j hj
      simp [Function.update, hj]
  · intro hf
    rcases newIndex_cases hw d index with hc | ⟨k, _, _, _, ho, _⟩
    · refine ⟨hc.2.1, ?_, ?_⟩
      · rw [hc.1]; rfl
      · intro d'
        rw [hc.1]; rfl
    · rw [ho] at hf
      cases hf
  · intro config
    refine ⟨rfl, rfl, ?_⟩
    apply forall_fin3 <;> simp [TimerController.init, writeLock, placeTimer, Function.update]

/-- C16: interrupSource() returns TINT0 = 0x01 for index 0, TINT1 = 0x02 for
index 1, TINT2 = 0x13 for index 2 and -1 for every other index. A controller
successfully constructed by either constructor reports one of the three
sources, and two objects whose indexes are different values among 0, 1, 2
report different sources. -/
theorem timer_interrupSource (hw : RegTimer) (d : Driver) (index : Int)
    (o o' : TimerController) :
    (TINT0 = 0x01 ∧ TINT1 = 0x02 ∧ TINT2 = 0x13) ∧
      (o.index_ = 0 → o.interrupSource = TINT0) ∧
      (o.index_ = 1 → o.interrupSource = TINT1) ∧
      (o.index_ = 2 → o.interrupSource = TINT2) ∧
      (o.index_ ≠ 0 → o.index_ ≠ 1 → o.index_ ≠ 2 → o.interrupSource = -1) ∧
      ((TimerController.newIndex hw d index).2.isConstructed_ = true →
        (TimerController.newIndex hw d index).2.interrupSource = TINT0 ∨
        (TimerController.newIndex hw d index).2.interrupSource = TINT1 ∨
        (TimerController.newIndex hw d index).2.interrupSource = TINT2) ∧
      ((TimerController.new hw d).2.isConstructed_ = true →
        (TimerController.new hw d).2.interrupSource = TINT0 ∨
        (TimerController.new hw d).2.interrupSource = TINT1 ∨
        (TimerController.new hw d).2.interrupSource = TINT2) ∧
      ((o.index_ = 0 ∨ o.index_ = 1 ∨ o.index_ = 2) →
        (o'.index_ = 0 ∨ o'.index_ = 1 ∨ o'.index_ = 2) →
        o.index_ ≠ o'.index_ → o.interrupSource ≠ o'.interrupSource) := by
  have src : ∀ i : Fin 3,
      (TimerController.mk true (i.val : Int) (some i)).interrupSource = TINT0 ∨
      (TimerController.mk true (i.val : Int) (some i)).interrupSource = TINT1 ∨
      (TimerController.mk true (i.val : Int) (some i)).interrupSource = TINT2 := by
    decide
  refine ⟨⟨rfl, rfl, rfl⟩, ?_, ?_, ?_, ?_, ?_, ?_, ?_⟩
  · intro h; simp [TimerController.interrupSource, h]
  · intro h; simp [TimerController.interrupSource, h]
  · intro h; simp [TimerController.interrupSource, h]
  · intro h0 h1 h2; simp [TimerController.interrupSource, h0, h1, h2]
  · intro hok
    rcases newIndex_cases hw d index with hc | ⟨i, _, ht, _, ho, _⟩
    · rw [hc.1] at hok
      cases hok
    · rw [ho, (timerOf_eq_some index i).1 ht]
      exact src i
  · intro hok
    rcases new_cases hw d with hc | ⟨i, _, _, _, ho, _⟩
    · rw [hc.1] at hok
      cases hok
    · rw [ho]
      exact src i
  · intro h h' hne
    rcases h with h | h | h <;> rcases h' with h' | h' | h' <;>
      simp [TimerController.interrupSource, TINT0, TINT1, TINT2, h, h'] <;>
      (rw [h, h'] at hne; exact absurd rfl hne)

/-- C17: with the global interrupt enable bit as explicit state, every path
through construct (driver not initialized, index out of range, timer locked,
success) and through the destructor (invalid object, valid object) leaves the
bit as it found it; the events of the call are none, or one globalDisable
matched by one globalEnable given the saved bit, and the only write of lock_
between them (true on a successful construct, false in the destructor of a
valid object) is made with the interrupts disabled. -/
theorem timer_gie_bracket (hw : RegTimer) (o : TimerController) (d : Driver) (index : Int) :
    ((o.construct hw d index).1.gie = d.gie ∧
      (∃ evs, (o.construct hw d index).1.trace = d.trace ++ evs ∧ Bracketed d.gie evs) ∧
      (d.isInitialized_ ≠ IS_INITIALIZED → (o.construct hw d index).1.trace = d.trace) ∧
      (d.isInitialized_ = IS_INITIALIZED → timerOf index = none →
        (o.construct hw d index).1.trace =
          d.trace ++ [Event.globalDisable d.gie, Event.globalEnable d.gie]) ∧
      (d.isInitialized_ = IS_INITIALIZED → ∀ i, timerOf index = some i → d.lock_ i = true →
        (o.construct hw d index).1.trace =
          d.trace ++ [Event.globalDisable d.gie, Event.globalEnable d.gie]) ∧
      (d.isInitialized_ = IS_INITIALIZED → ∀ i, timerOf index = some i → d.lock_ i = false →
        (o.construct hw d index).1.trace =
          d.trace ++ [Event.globalDisable d.gie, Event.lockWrite i true false,
            Event.globalEnable d.gie])) ∧
    ((o.destroy d).1.gie = d.gie ∧
      (∃ evs, (o.destroy d).1.trace = d.trace ++ evs ∧ Bracketed d.gie evs) ∧
      (o.isConstructed_ = false → (o.destroy d).1.trace = d.trace) ∧
      (o.isConstructed_ = true → ∀ i, timerOf o.index_ = some i →
        (o.destroy d).1.trace =
          d.trace ++ [Event.globalDisable d.gie, Event.lockWrite i false false,
            Event.globalEnable d.gie])) := by
  have c1 : d.isInitialized_ ≠ IS_INITIALIZED → (o.construct hw d index).1 = d := by
    intro hi
    simp [TimerController.construct, hi]
  have c2 : d.isInitialized_ = IS_INITIALIZED → timerOf index = none →
      (o.construct hw d index).1.gie = d.gie ∧ (o.construct hw d index).1.trace =
        d.trace ++ [Event.globalDisable d.gie, Event.globalEnable d.gie] := by
    intro hi ht
    cases hg : d.gie <;>
      simp [TimerController.construct, hi, ht, globalDisable, globalEnableRet, globalEnable, hg]
  have c3 : d.isInitialized_ = IS_INITIALIZED → ∀ i, timerOf index = some i →
      d.lock_ i = true →
      (o.construct hw d index).1.gie = d.gie ∧ (o.construct hw d index).1.trace =
        d.trace ++ [Event.globalDisable d.gie, Event.globalEnable d.gie] := by
    intro hi i ht hl
    cases hg : d.gie <;>
      simp [TimerController.construct, hi, ht, hl, globalDisable, globalEnableRet,
        globalEnable, hg]
  have c4 : d.isInitialized_ = IS_INITIALIZED → ∀ i, timerOf index = some i →
      d.lock_ i = false →
      (o.construct hw d index).1.gie = d.gie ∧ (o.construct hw d index).1.trace =
        d.trace ++ [Event.globalDisable d.gie, Event.lockWrite i true false,
          Event.globalEnable d.gie] := by
    intro hi i ht hl
    cases hg : d.gie <;>
      simp [TimerController.construct, hi, ht, hl, globalDisable, globalEnableRet,
        globalEnable, writeLock, placeTimer, hg]
  have d1 : o.isConstructed_ = false → (o.destroy d).1 = d := by
    intro hc
    simp [TimerController.destroy, hc]
  have d2 : o.isConstructed_ = true → timerOf o.index_ = none →
      (o.destroy d).1.gie = d.gie ∧ (o.destroy d).1.trace =
        d.trace ++ [Event.globalDisable d.gie, Event.globalEnable d.gie] := by
    intro hc ht
    cases hg : d.gie <;> cases hr : o.regTim_ <;>
      simp [TimerController.destroy, TimerController.stop, writeRegs, hc, ht, hr,
        globalDisable, globalEnable, hg]
  have d3 : o.isConstructed_ = true → ∀ i, timerOf o.index_ = some i →
      (o.destroy d).1.gie = d.gie ∧ (o.destroy d).1.trace =
        d.trace ++ [Event.globalDisable d.gie, Event.lockWrite i false false,
          Event.globalEnable d.gie] := by
    intro hc i ht
    cases hg : d.gie <;> cases hr : o.regTim_ <;>
      simp [TimerController.destroy, TimerController.stop, writeRegs, writeLock, hc, ht, hr,
        globalDisable, globalEnable, hg]
  have plain : Bracketed d.gie [Event.globalDisable d.gie, Event.globalEnable d.gie] :=
    Or.inr ⟨[], rfl, by simp⟩
  have wr : ∀ i v, Bracketed d.gie
      [Event.globalDisable d.gie, Event.lockWrite i v false, Event.globalEnable d.gie] :=
    fun i v => Or.inr ⟨[Event.lockWrite i v false], rfl, fun e he =>
      ⟨i, v, List.mem_singleton.1 he⟩⟩
  refine ⟨⟨?_, ?_, fun hi => by rw [c1 hi], fun hi ht => (c2 hi ht).2,
    fun hi i ht hl => (c3 hi i ht hl).2, fun hi i ht hl => (c4 hi i ht hl).2⟩,
    ⟨?_, ?_, fun hc => by rw [d1 hc], fun hc i ht => (d3 hc i ht).2⟩⟩
  · by_cases hi : d.isInitialized_ = IS_INITIALIZED
    · cases ht : timerOf index with
      | none => exact (c2 hi ht).1
      | some i =>
        cases hl : d.lock_ i
        · exact (c4 hi i ht hl).1
        · exact (c3 hi i ht hl).1
    · rw [c1 hi]
  · by_cases hi : d.isInitialized_ = IS_INITIALIZED
    · cases ht : timerOf index with
      | none => exact ⟨_, (c2 hi ht).2, plain⟩
      | some i =>
        cases hl : d.lock_ i
        · exact ⟨_, (c4 hi i ht hl).2, wr i true⟩
        · exact ⟨_, (c3 hi i ht hl).2, plain⟩
    · exact ⟨[], by rw [c1 hi]; simp, Or.inl rfl⟩
  · cases hc : o.isConstructed_
    · rw [d1 hc]
    · cases ht : timerOf o.index_ with
      | none => exact (d2 hc ht).1
      | some i => exact (d3 hc i ht).1
  · cases hc : o.isConstructed_
    · exact ⟨[], by rw [d1 hc]; simp, Or.inl rfl⟩
    · cases ht : timerOf o.index_ with
      | none => exact ⟨_, (d2 hc ht).2, plain⟩
      | some i => exact ⟨_, (d3 hc i ht).2, wr i false⟩

/-- C20: the default constructor TimerController() fails exactly when the
driver is not initialized or all three timers are locked, and then the lock
table is unchanged; with the driver initialized and i the lowest-numbered
timer that is not locked, the object is valid, getIndex() is i, and the lock
table is the old one with only the entry of i set. -/
theorem timer_new_lowest (hw : RegTimer) (d : Driver) :
    ((TimerController.new hw d).2.isConstructed_ = false ↔
        (d.isInitialized_ ≠ IS_INITIALIZED ∨ ∀ i, d.lock_ i = true)) ∧
      ((TimerController.new hw d).2.isConstructed_ = false →
        (TimerController.new hw d).1.lock_ = d.lock_) ∧
      (∀ i : Fin 3, d.isInitialized_ = IS_INITIALIZED → d.lock_ i = false →
        (∀ j, j < i → d.lock_ j = true) →
          (TimerController.new hw d).2.isConstructed_ = true ∧
          (TimerController.new hw d).2.getIndex = (i.val : Int) ∧
          (TimerController.new hw d).1.lock_ = Function.update d.lock_ i true ∧
          (TimerController.new hw d).1.lock_ i = true ∧
          ∀ j, j ≠ i → (TimerController.new hw d).1.lock_ j = d.lock_ j) := by
  rcases new_cases hw d with hc | ⟨k, hi, hl, hlow, ho, hlock, _⟩
  · refine ⟨?_, fun _ => hc.2.1, ?_⟩
    · rw [hc.1]
      exact ⟨fun _ => hc.2.2.2.2.2, fun _ => rfl⟩
    · intro i hi hl _
      rcases hc.2.2.2.2.2 with h | h
      · exact absurd hi h
      · rw [h i] at hl
        cases hl
  · refine ⟨?_, ?_, ?_⟩
    · rw [ho]
      constructor
      · intro h; cases h
      · rintro (h | h)
        · exact absurd hi h
        · rw [h k] at hl
          cases hl
    · intro h
      rw [ho] at h
      cases h
    · intro i _ hli hlowi
      have hik : i = k := by
        rcases lt_trichotomy i k with h | h | h
        · have := hlow i h
          rw [hli] at this
          cases this
        · exact h
        · have := hlowi k h
          rw [hl] at this
          cases this
      subst hik
      rw [ho, hlock]
      refine ⟨rfl, rfl, rfl, by simp, ?_⟩
      intro j hj
      simp [Function.update, hj]

/-- Masking with `0x00000000ffffffff` keeps the low 32 bits. -/
theorem and_low_mask (x : Nat) : x &&& 0x00000000ffffffff = x % 4294967296 := by
  have h := Nat.and_pow_two_sub_one_eq_mod x 32
  norm_num at h
  exact h

/-- The bits of the mask `0xffffffff00000000` are the bits 32 to 63. -/
theorem high_mask_testBit (j : Nat) :
    (0xffffffff00000000 : Nat).testBit j = (decide (32 ≤ j) && decide (j < 64)) := by
  by_cases h : j < 64
  · interval_cases j <;> decide
  · have h64 : (0xffffffff00000000 : Nat) < 2 ^ j :=
      lt_of_lt_of_le (by norm_num : (0xffffffff00000000 : Nat) < 2 ^ 64)
        (Nat.pow_le_pow_right (by norm_num) (by omega))
    rw [Nat.testBit_lt_two_pow h64]
    simp [h]

/-- A `uint64` has no bit of the mask `0xffffffff00000000` exactly when it is
below 2^32. -/
theorem and_high_mask_eq_zero (x : Nat) (hx : x < 18446744073709551616) :
    x &&& 0xffffffff00000000 = 0 ↔ x < 4294967296 := by
  constructor
  · intro h
    have : x < 2 ^ 32 := by
      apply Nat.lt_pow_two_of_testBit
      intro j hj
      by_cases h64 : j < 64
      · have hb := congrArg (fun y => Nat.testBit y j) h
        simp only [Nat.testBit_and, high_mask_testBit, Nat.zero_testBit] at hb
        simpa [hj, h64] using hb
      · apply Nat.testBit_lt_two_pow
        have hx' : x < 2 ^ 64 := by norm_num; exact hx
        exact lt_of_lt_of_le hx' (Nat.pow_le_pow_right (by norm_num) (by omega))
    simpa using this
  · intro h
    apply Nat.eq_of_testBit_eq
    intro j
    rw [Nat.testBit_and, high_mask_testBit, Nat.zero_testBit]
    by_cases hj : 32 ≤ j
    · have : x.testBit j = false := by
        apply Nat.testBit_lt_two_pow
        have h' : x < 2 ^ 32 := by norm_num; exact h
        exact lt_of_lt_of_le h' (Nat.pow_le_pow_right (by norm_num) hj)
      simp [this]
    · simp [hj]

/-- A `uint64` made from any integer is below 2^64. -/
theorem toUInt64_lt (x : Int) : toUInt64 x < 18446744073709551616 := by
  unfold toUInt64
  omega

/-- Conversion to `uint64` keeps a non-negative `int64` value. -/
theorem toUInt64_of_nonneg (x : Int) (h0 : 0 ≤ x) (h1 : x < 18446744073709551616) :
    toUInt64 x = x.toNat := by
  unfold toUInt64
  omega

/-- Conversion to `uint64` sends a negative `int64` value to 2^63 or above. -/
theorem toUInt64_of_neg (x : Int) (h0 : -9223372036854775808 ≤ x) (h1 : x < 0) :
    9223372036854775808 ≤ toUInt64 x := by
  unfold toUInt64
  omega

/-- The quotient of an `int64` by 1000000, rounded toward zero, is an `int64`. -/
theorem tdiv_million_range (a : Int) (h1 : -9223372036854775808 ≤ a)
    (h2 : a < 9223372036854775808) :
    -9223372036854775808 ≤ a.tdiv 1000000 ∧ a.tdiv 1000000 < 9223372036854775808 := by
  have h : (a.tdiv 1000000).natAbs = a.natAbs / 1000000 := Int.natAbs_tdiv a 1000000
  omega

/-- An `int64` made from any integer is in the range of the type. -/
theorem toInt64_range (x : Int) :
    -9223372036854775808 ≤ toInt64 x ∧ toInt64 x < 9223372036854775808 := by
  unfold toInt64
  omega

/-- What setCount does on a constructed controller of timer `i` whose period
register holds a `uint32`. -/
theorem setCount_eq (o : TimerController) (d : Driver) (i : Fin 3) (count : Int)
    (hc : o.isConstructed_ = true) (hr : o.regTim_ = some i)
    (hp : (d.regs i).prd < 4294967296) :
    o.setCount d count =
      if toUInt64 count > (d.regs i).prd then d
      else
        { d with
          regs := Function.update d.regs i
            { d.regs i with cnt := toUInt64 count % 4294967296 % 4294967296 } } := by
  have hprd : toUInt64 ((d.regs i).prd : Int) = (d.regs i).prd := by
    unfold toUInt64
    omega
  simp [TimerController.setCount, TimerController.getPeriod, readRegs, writeRegs, hc, hr,
    toUInt32, and_low_mask, hprd]

/-- C19: on a constructed TimerController of timer i whose period register
holds the uint32 value P, setCount(count) for an int64 count sets the counter
register to count when 0 <= count <= P and leaves the driver as it was when
count is negative or greater than P; it never changes a period or control
register nor a register of another timer; so counter <= period, when it held
before the call, holds after it. -/
theorem timer_setCount (o : TimerController) (d : Driver) (i : Fin 3) (count : Int)
    (hc : o.isConstructed_ = true) (hr : o.regTim_ = some i)
    (hp : (d.regs i).prd < 4294967296)
    (hlo : -9223372036854775808 ≤ count) (hhi : count < 9223372036854775808) :
    o.getPeriod d = ((d.regs i).prd : Int) ∧
      (0 ≤ count → count ≤ ((d.regs i).prd : Int) →
        (((o.setCount d count).regs i).cnt : Int) = count) ∧
      ((count < 0 ∨ ((d.regs i).prd : Int) < count) → o.setCount d count = d) ∧
      (∀ j, ((o.setCount d count).regs j).prd = (d.regs j).prd ∧
        ((o.setCount d count).regs j).ctl = (d.regs j).ctl) ∧
      (∀ j, j ≠ i → (o.setCount d count).regs j = d.regs j) ∧
      ((d.regs i).cnt ≤ (d.regs i).prd →
        ((o.setCount d count).regs i).cnt ≤ ((o.setCount d count).regs i).prd) := by
  have he := setCount_eq o d i count hc hr hp
  refine ⟨by simp [TimerController.getPeriod, readRegs, hc, hr], ?_, ?_, ?_, ?_, ?_⟩
  · intro h0 h1
    have hu := toUInt64_of_nonneg count h0 (by omega)
    have hle : ¬ toUInt64 count > (d.regs i).prd := by omega
    rw [he, if_neg hle]
    simp only [Function.update_same]
    omega
  · intro h
    have hgt : toUInt64 count > (d.regs i).prd := by
      rcases h with h | h
      · have := toUInt64_of_neg count hlo h
        omega
      · have hu := toUInt64_of_nonneg count (by omega) (by omega)
        omega
    rw [he, if_pos hgt]
  · intro j
    rw [he]
    by_cases hgt : toUInt64 count > (d.regs i).prd
    · simp [hgt]
    · by_cases hj : j = i
      · subst hj
        simp [hgt]
      · simp [hgt, Function.update, hj]
  · intro j hj
    rw [he]
    by_cases hgt : toUInt64 count > (d.regs i).prd
    · simp [hgt]
    · simp [hgt, Function.update, hj]
  · intro hcp
    rw [he]
    by_cases hgt : toUInt64 count > (d.regs i).prd
    · simpa [hgt] using hcp
    · simp only [if_neg hgt, Function.update_same]
      omega

/-- Instance of C19: TimerController(1) on the initialized driver, period set
to the maximum by setPeriod(), then setCount(1000). -/
theorem timer_setCount_witness :
    exampleTimer.2.getPeriod (exampleTimer.2.setPeriod exampleTimer.1 0) = 4294967295 ∧
      ((((exampleTimer.2.setCount (exampleTimer.2.setPeriod exampleTimer.1 0) 1000).regs 1).cnt
        : Nat) : Int) = 1000 :=
  ⟨(timer_setCount exampleTimer.2 (exampleTimer.2.setPeriod exampleTimer.1 0) 1 1000
      (by decide) (by decide) (by decide) (by decide) (by decide)).1,
    (timer_setCount exampleTimer.2 (exampleTimer.2.setPeriod exampleTimer.1 0) 1 1000
      (by decide) (by decide) (by decide) (by decide) (by decide)).2.1 (by decide) (by decide)⟩

/-- What setPeriod does on a constructed controller of timer `i`. -/
theorem setPeriod_eq (o : TimerController) (d : Driver) (i : Fin 3) (us : Int)
    (hc : o.isConstructed_ = true) (hr : o.regTim_ = some i) :
    o.setPeriod d us =
      if us = 0 then
        { d with regs := Function.update d.regs i { d.regs i with prd := 4294967295 } }
      else if o.internalClock d = 0 then d
      else if toUInt64 (Int.tdiv (toInt64 (us * o.internalClock d)) 1000000) < 4294967296 then
        { d with
          regs := Function.update d.regs i
            { d.regs i with
              prd := toUInt64 (Int.tdiv (toInt64 (us * o.internalClock d)) 1000000) } }
      else { d with regs := Function.update d.regs i { d.regs i with prd := 4294967295 } } := by
  by_cases hus : us = 0
  · simp [TimerController.setPeriod, writeRegs, hc, hr, hus, toUInt32]
  · by_cases hk : o.internalClock d = 0
    · simp [TimerController.setPeriod, hc, hus, hk]
    · have hm := and_high_mask_eq_zero
        (toUInt64 (Int.tdiv (toInt64 (us * o.internalClock d)) 1000000)) (toUInt64_lt _)
      by_cases hq : toUInt64 (Int.tdiv (toInt64 (us * o.internalClock d)) 1000000) < 4294967296
      · have hz := hm.2 hq
        have hmod : toUInt64 (Int.tdiv (toInt64 (us * o.internalClock d)) 1000000) %
            4294967296 = toUInt64 (Int.tdiv (toInt64 (us * o.internalClock d)) 1000000) :=
          Nat.mod_eq_of_lt hq
        simp only [TimerController.setPeriod, hc, hus, hk, hz, hq, writeRegs, hr, toUInt32,
          and_low_mask, hmod]
        simp
      · have hz : ¬ toUInt64 (Int.tdiv (toInt64 (us * o.internalClock d)) 1000000) &&&
            0xffffffff00000000 = 0 := fun h => hq (hm.1 h)
        simp only [TimerController.setPeriod, hc, hus, hk, hz, hq,
          TimerController.setPeriodDefault, writeRegs, hr, toUInt32]
        simp

/-- C15: on a constructed TimerController of timer i, setPeriod(0), which is
what setPeriod() is, sets the period register to 0xFFFFFFFF. For us != 0 and a
non-zero internal clock, with q the int64 quotient of the int64 product
us * internalClock() by 1000000 rounded toward zero, the period register
becomes q when 0 <= q < 2^32 and 0xFFFFFFFF otherwise, every negative q
included; the product is the exact one when it fits an int64. For us != 0 and
a zero internal clock the driver is left as it was. internalClock() is
cpuClock shifted right by 3, cpuClock / 8 rounded down. -/
theorem timer_setPeriod (o : TimerController) (d : Driver) (i : Fin 3) (us : Int)
    (hc : o.isConstructed_ = true) (hr : o.regTim_ = some i) :
    (o.setPeriod d 0 = o.setPeriodDefault d ∧ ((o.setPeriod d 0).regs i).prd = 0xFFFFFFFF ∧
        ((o.setPeriodDefault d).regs i).prd = 0xFFFFFFFF) ∧
      (us ≠ 0 → o.internalClock d ≠ 0 →
        (0 ≤ Int.tdiv (toInt64 (us * o.internalClock d)) 1000000 →
          Int.tdiv (toInt64 (us * o.internalClock d)) 1000000 < 4294967296 →
          (((o.setPeriod d us).regs i).prd : Int) =
            Int.tdiv (toInt64 (us * o.internalClock d)) 1000000) ∧
        ((Int.tdiv (toInt64 (us * o.internalClock d)) 1000000 < 0 ∨
            4294967296 ≤ Int.tdiv (toInt64 (us * o.internalClock d)) 1000000) →
          ((o.setPeriod d us).regs i).prd = 0xFFFFFFFF)) ∧
      (-9223372036854775808 ≤ us * o.internalClock d →
        us * o.internalClock d < 9223372036854775808 →
        toInt64 (us * o.internalClock d) = us * o.internalClock d) ∧
      (us ≠ 0 → o.internalClock d = 0 → o.setPeriod d us = d) ∧
      (o.internalClock d = d.config_.cpuClock >>> (3 : Nat) ∧
        o.internalClock d = d.config_.cpuClock / 8 ∧
        8 * o.internalClock d ≤ d.config_.cpuClock ∧
        d.config_.cpuClock < 8 * o.internalClock d + 8) := by
  have he := setPeriod_eq o d i us hc hr
  have he0 := setPeriod_eq o d i 0 hc hr
  have hclk : o.internalClock d = d.config_.cpuClock / 8 := by
    show d.config_.cpuClock >>> (3 : Nat) = d.config_.cpuClock / 8
    rw [Int.shiftRight_eq_div_pow]
    norm_num
  refine ⟨⟨?_, ?_, ?_⟩, ?_, ?_, ?_, ⟨rfl, hclk, ?_, ?_⟩⟩
  · simp [TimerController.setPeriod, TimerController.setPeriodDefault, hc]
  · rw [he0]
    simp
  · simp [TimerController.setPeriodDefault, writeRegs, hc, hr, toUInt32]
  · intro hus hk
    have hrange := tdiv_million_range (toInt64 (us * o.internalClock d))
      (toInt64_range _).1 (toInt64_range _).2
    constructor
    · intro h0 h1
      have hu := toUInt64_of_nonneg
        (Int.tdiv (toInt64 (us * o.internalClock d)) 1000000) h0 (by omega)
      have hq : toUInt64 (Int.tdiv (toInt64 (us * o.internalClock d)) 1000000) < 4294967296 := by
        omega
      rw [he]
      simp only [if_neg hus, if_neg hk, if_pos hq, Function.update_same]
      omega
    · intro h
      have hq : ¬ toUInt64 (Int.tdiv (toInt64 (us * o.internalClock d)) 1000000) <
          4294967296 := by
        rcases h with h | h
        · have := toUInt64_of_neg _ hrange.1 h
          omega
        · have hu := toUInt64_of_nonneg
            (Int.tdiv (toInt64 (us * o.internalClock d)) 1000000) (by omega) (by omega)
          omega
      rw [he]
      simp only [if_neg hus, if_neg hk, if_neg hq, Function.update_same]
  · intro h1 h2
    unfold toInt64
    omega
  · intro hus hk
    rw [he]
    simp [hus, hk]
  · rw [hclk]
    omega
  · rw [hclk]
    omega

/-- Instance of C15: TimerController(1) on the initialized driver with a
processor clock of 800 MHz, so an internal clock of 100 MHz; setPeriod(1000)
gives a period of 100000 ticks. -/
theorem timer_setPeriod_witness :
    exampleTimer.2.internalClock exampleTimer.1 = 100000000 ∧
      ((exampleTimer.2.setPeriod exampleTimer.1 0).regs 1).prd = 0xFFFFFFFF ∧
      ((((exampleTimer.2.setPeriod exampleTimer.1 1000).regs 1).prd : Nat) : Int) =
        Int.tdiv (toInt64 (1000 * exampleTimer.2.internalClock exampleTimer.1)) 1000000 :=
  ⟨by decide,
    (timer_setPeriod exampleTimer.2 exampleTimer.1 1 1000 (by decide) (by decide)).1.2.1,
    ((timer_setPeriod exampleTimer.2 exampleTimer.1 1 1000 (by decide) (by decide)).2.1
      (by decide) (by decide)).1 (by decide) (by decide)⟩

/-- Different timers have different indexes. -/
theorem fin3_val_inj (i j : Fin 3) (h : (i.val : Int) = (j.val : Int)) : i = j := by
  apply Fin.ext
  omega

/-- Both constructors end in an `Outcome`. -/
theorem newIndex_outcome (hw : RegTimer) (d : Driver) (index : Int) :
    Outcome d (TimerController.newIndex hw d index).1 (TimerController.newIndex hw d index).2 := by
  rcases newIndex_cases hw d index with hc | ⟨i, _, ht, hl, ho, hlock, _⟩
  · left
    exact ⟨by rw [hc.1], hc.2.1⟩
  · right
    refine ⟨i, hl, ?_, hlock⟩
    rw [ho, (timerOf_eq_some index i).1 ht]

/-- The default constructor ends in an `Outcome`. -/
theorem new_outcome (hw : RegTimer) (d : Driver) :
    Outcome d (TimerController.new hw d).1 (TimerController.new hw d).2 := by
  rcases new_cases hw d with hc | ⟨i, _, hl, _, ho, hlock, _⟩
  · left
    exact ⟨by rw [hc.1], hc.2.1⟩
  · right
    exact ⟨i, hl, ho, hlock⟩

/-- A consistent system stays consistent when the object of a constructor
joins the live controllers. -/
theorem consistent_append (d d' : Driver) (live : List TimerController) (o : TimerController)
    (hs : TimerSystem.Consistent { driver := d, live := live }) (ho : Outcome d d' o) :
    TimerSystem.Consistent { driver := d', live := live ++ [o] } := by
  obtain ⟨h1, h2, h3⟩ := hs
  rcases ho with ⟨hinv, hlock⟩ | ⟨i, hl, rfl, hlock⟩
  · refine ⟨?_, ?_, ?_⟩
    · intro x hx hxc
      rcases List.mem_append.1 hx with hx | hx
      · exact h1 x hx hxc
      · rw [List.mem_singleton.1 hx, hinv] at hxc
        cases hxc
    · refine List.pairwise_append.2 ⟨h2, List.pairwise_singleton _ _, ?_⟩
      intro a _ b hb _ hbc
      rw [List.mem_singleton.1 hb, hinv] at hbc
      cases hbc
    · intro j
      show d'.lock_ j = true ↔ _
      rw [hlock]
      refine (h3 j).trans ⟨?_, ?_⟩
      · rintro ⟨x, hx, hxc⟩
        exact ⟨x, List.mem_append.2 (Or.inl hx), hxc⟩
      · rintro ⟨x, hx, hxc, hxi⟩
        rcases List.mem_append.1 hx with hx | hx
        · exact ⟨x, hx, hxc, hxi⟩
        · rw [List.mem_singleton.1 hx, hinv] at hxc
          cases hxc
  · have hfree : ∀ x ∈ live, x.isConstructed_ = true → x.index_ ≠ (i.val : Int) := by
      intro x hx hxc hxi
      have := (h3 i).2 ⟨x, hx, hxc, hxi⟩
      rw [hl] at this
      cases this
    refine ⟨?_, ?_, ?_⟩
    · intro x hx hxc
      rcases List.mem_append.1 hx with hx | hx
      · exact h1 x hx hxc
      · rw [List.mem_singleton.1 hx]
        exact ⟨i, rfl⟩
    · refine List.pairwise_append.2 ⟨h2, List.pairwise_singleton _ _, ?_⟩
      intro a ha b hb hac _
      rw [List.mem_singleton.1 hb]
      exact hfree a ha hac
    · intro j
      show d'.lock_ j = true ↔ _
      rw [hlock]
      by_cases hji : j = i
      · subst hji
        simp only [Function.update_same, true_iff]
        exact ⟨_, List.mem_append.2 (Or.inr (List.mem_singleton.2 rfl)), rfl, rfl⟩
      · rw [Function.update_noteq hji]
        refine (h3 j).trans ⟨?_, ?_⟩
        · rintro ⟨x, hx, hxc⟩
          exact ⟨x, List.mem_append.2 (Or.inl hx), hxc⟩
        · rintro ⟨x, hx, hxc, hxi⟩
          rcases List.mem_append.1 hx with hx | hx
          · exact ⟨x, hx, hxc, hxi⟩
          · rw [List.mem_singleton.1 hx] at hxi
            exact absurd (fin3_val_inj i j hxi).symm hji

/-- The object at position `k` splits the list around it, and erasing the
position leaves the two sides. -/
theorem get_split (live : List TimerController) :
    ∀ (k : Nat) (o : TimerController), live.get? k = some o →
      ∃ l₁ l₂, live = l₁ ++ o :: l₂ ∧ live.eraseIdx k = l₁ ++ l₂ := by
  induction live with
  | nil =>
    intro k o h
    simp at h
  | cons x xs ih =>
    intro k o h
    cases k with
    | zero =>
      simp only [List.get?_cons_zero, Option.some.injEq] at h
      subst h
      exact ⟨[], xs, rfl, rfl⟩
    | succ k =>
      simp only [List.get?_cons_succ] at h
      obtain ⟨l₁, l₂, h1, h2⟩ := ih k o h
      exact ⟨x :: l₁, l₂, by simp [h1], by simp [h2]⟩

/-- The destructor of a valid controller of timer `i` clears the lock entry of
`i` and no other. -/
theorem destroy_lock (o : TimerController) (d : Driver) (i : Fin 3)
    (hc : o.isConstructed_ = true) (hi : o.index_ = (i.val : Int)) :
    (o.destroy d).1.lock_ = Function.update d.lock_ i false := by
  have ht : timerOf o.index_ = some i := (timerOf_eq_some o.index_ i).2 hi
  cases hr : o.regTim_ <;>
    simp [TimerController.destroy, TimerController.stop, writeRegs, writeLock, globalDisable,
      globalEnable, hc, ht, hr]

/-- A consistent system stays consistent when a live controller is destroyed. -/
theorem consistent_erase (d : Driver) (l₁ l₂ : List TimerController) (o : TimerController)
    (hs : TimerSystem.Consistent { driver := d, live := l₁ ++ o :: l₂ }) :
    TimerSystem.Consistent { driver := (o.destroy d).1, live := l₁ ++ l₂ } := by
  obtain ⟨h1, h2, h3⟩ := hs
  have hsub : ∀ x, x ∈ l₁ ++ l₂ → x ∈ l₁ ++ o :: l₂ := by
    intro x hx
    rcases List.mem_append.1 hx with hx | hx
    · exact List.mem_append.2 (Or.inl hx)
    · exact List.mem_append.2 (Or.inr (List.mem_cons_of_mem _ hx))
  have hp := List.pairwise_append.1 h2
  have hp2 := List.pairwise_cons.1 hp.2.1
  have hpw : (l₁ ++ l₂).Pairwise Apart :=
    List.pairwise_append.2 ⟨hp.1, hp2.2, fun a ha b hb =>
      hp.2.2 a ha b (List.mem_cons_of_mem _ hb)⟩
  refine ⟨fun x hx => h1 x (hsub x hx), hpw, ?_⟩
  intro j
  show (o.destroy d).1.lock_ j = true ↔ _
  cases hc : o.isConstructed_ with
  | false =>
    have hd : (o.destroy d).1 = d := by simp [TimerController.destroy, hc]
    rw [hd]
    refine (h3 j).trans ⟨?_, ?_⟩
    · rintro ⟨x, hx, hxc, hxi⟩
      refine ⟨x, ?_, hxc, hxi⟩
      rcases List.mem_append.1 hx with hx | hx
      · exact List.mem_append.2 (Or.inl hx)
      · rcases List.mem_cons.1 hx with hx | hx
        · rw [hx, hc] at hxc
          cases hxc
        · exact List.mem_append.2 (Or.inr hx)
    · rintro ⟨x, hx, hxc⟩
      exact ⟨x, hsub x hx, hxc⟩
  | true =>
    obtain ⟨i, hi⟩ := h1 o (List.mem_append.2 (Or.inr (List.mem_cons_self _ _))) hc
    rw [destroy_lock o d i hc hi]
    by_cases hji : j = i
    · subst hji
      simp only [Function.update_same, Bool.false_eq_true, false_iff]
      rintro ⟨x, hx, hxc, hxi⟩
      rcases List.mem_append.1 hx with hx | hx
      · exact hp.2.2 x hx o (List.mem_cons_self _ _) hxc hc (hxi.trans hi.symm)
      · exact hp2.1 x hx hc hxc (hi.trans hxi.symm)
    · rw [Function.update_noteq hji]
      refine (h3 j).trans ⟨?_, ?_⟩
      · rintro ⟨x, hx, hxc, hxi⟩
        refine ⟨x, ?_, hxc, hxi⟩
        rcases List.mem_append.1 hx with hx | hx
        · exact List.mem_append.2 (Or.inl hx)
        · rcases List.mem_cons.1 hx with hx | hx
          · rw [hx, hi] at hxi
            exact absurd (fin3_val_inj i j hxi).symm hji
          · exact List.mem_append.2 (Or.inr hx)
      · rintro ⟨x, hx, hxc⟩
        exact ⟨x, hsub x hx, hxc⟩

/-- Every step of a program keeps the system consistent. -/
theorem step_consistent (hw : RegTimer) (s : TimerSystem) (op : TimerOp)
    (hs : s.Consistent) : (s.step hw op).Consistent := by
  cases op with
  | create index =>
    cases index with
    | none => exact consistent_append _ _ _ _ hs (new_outcome hw s.driver)
    | some index => exact consistent_append _ _ _ _ hs (newIndex_outcome hw s.driver index)
  | destroy k =>
    cases hg : s.live.get? k with
    | none =>
      simp only [TimerSystem.step, hg]
      exact hs
    | some o =>
      obtain ⟨l₁, l₂, h1, h2⟩ := get_split s.live k o hg
      simp only [TimerSystem.step, hg, h2]
      apply consistent_erase
      rw [← h1]
      exact hs

/-- Every program keeps a consistent system consistent. -/
theorem run_consistent (hw : RegTimer) (ops : List TimerOp) :
    ∀ s : TimerSystem, s.Consistent → (s.run hw ops).Consistent := by
  induction ops with
  | nil => intro s hs; exact hs
  | cons op ops ih =>
    intro s hs
    exact ih (s.step hw op) (step_consistent hw s op hs)

/-- C18: starting from TimerController::init with no controller alive, after
every sequence of constructions, by TimerController() or TimerController(index)
with any index, and destructions of live controllers, every live constructed
controller holds an index among 0, 1, 2, no two live constructed controllers
hold the same index, and lock_[i] is true exactly when some live constructed
controller holds index i. -/
theorem timer_system_consistent (hw : RegTimer) (d : Driver) (config : Configuration)
    (ops : List TimerOp) :
    (∀ o ∈ ((TimerSystem.boot hw d config).run hw ops).live, o.isConstructed_ = true →
        ∃ i : Fin 3, o.index_ = (i.val : Int)) ∧
      ((TimerSystem.boot hw d config).run hw ops).live.Pairwise
        (fun a b => a.isConstructed_ = true → b.isConstructed_ = true → a.index_ ≠ b.index_) ∧
      (∀ i : Fin 3, ((TimerSystem.boot hw d config).run hw ops).driver.lock_ i = true ↔
        ∃ o ∈ ((TimerSystem.boot hw d config).run hw ops).live,
          o.isConstructed_ = true ∧ o.index_ = (i.val : Int)) := by
  have h0 : (TimerSystem.boot hw d config).Consistent := by
    refine ⟨?_, List.Pairwise.nil, ?_⟩
    · intro o ho
      simp [TimerSystem.boot] at ho
    · intro i
      have hl : (TimerSystem.boot hw d config).driver.lock_ i = false := by
        revert i
        apply forall_fin3 <;>
          simp [TimerSystem.boot, TimerController.init, writeLock, placeTimer, Function.update]
      rw [hl]
      simp [TimerSystem.boot]
  exact run_consistent hw ops _ h0

/-- The destructor of a valid controller of timer `i` writes 0 to the control
register of `i`, changes no other register, and leaves the initialized flag
and the global interrupt enable bit as they were. -/
theorem destroy_frame (o : TimerController) (d : Driver) (i : Fin 3)
    (hc : o.isConstructed_ = true) (hi : o.index_ = (i.val : Int)) (hr : o.regTim_ = some i) :
    (o.destroy d).1.regs = Function.update d.regs i { d.regs i with ctl := 0 } ∧
      (o.destroy d).1.isInitialized_ = d.isInitialized_ ∧
      (o.destroy d).1.gie = d.gie ∧
      (o.destroy d).2 = { isConstructed_ := true, index_ := -1, regTim_ := none } := by
  have ht : timerOf o.index_ = some i := (timerOf_eq_some o.index_ i).2 hi
  cases hg : d.gie <;>
    simp [TimerController.destroy, TimerController.stop, writeRegs, writeLock, globalDisable,
      globalEnable, hc, ht, hr, hg]

/-- C21: destroying a successfully constructed TimerController that holds
index i, in any state of the driver, sets lock_[i] to false, writes 0 to the
control register of timer i and leaves every other lock entry, the period and
counter registers of timer i and the registers of the other timers unchanged.
So when TimerController(i) succeeds, destroying the object right after it
restores the lock table to what it was before the construction, and a
following TimerController(i) succeeds and holds index i. -/
theorem timer_destroy_roundtrip (hw : RegTimer) (o : TimerController) (d d0 : Driver)
    (i : Fin 3) (hc : o.isConstructed_ = true) (hi : o.index_ = (i.val : Int))
    (hr : o.regTim_ = some i) :
    ((o.destroy d).1.lock_ i = false ∧
        (∀ j, j ≠ i → (o.destroy d).1.lock_ j = d.lock_ j) ∧
        ((o.destroy d).1.regs i).ctl = 0 ∧
        ((o.destroy d).1.regs i).prd = (d.regs i).prd ∧
        ((o.destroy d).1.regs i).cnt = (d.regs i).cnt ∧
        (∀ j, j ≠ i → (o.destroy d).1.regs j = d.regs j)) ∧
      ((TimerController.newIndex hw d0 (i.val : Int)).2.isConstructed_ = true →
        (TimerController.newIndex hw d0 (i.val : Int)).2.index_ = (i.val : Int) ∧
        (TimerController.newIndex hw d0 (i.val : Int)).2.regTim_ = some i ∧
        (TimerController.newIndex hw d0 (i.val : Int)).1.lock_ i = true ∧
        ((TimerController.newIndex hw d0 (i.val : Int)).2.destroy
          (TimerController.newIndex hw d0 (i.val : Int)).1).1.lock_ = d0.lock_ ∧
        (TimerController.newIndex hw
          ((TimerController.newIndex hw d0 (i.val : Int)).2.destroy
            (TimerController.newIndex hw d0 (i.val : Int)).1).1
          (i.val : Int)).2.isConstructed_ = true ∧
        (TimerController.newIndex hw
          ((TimerController.newIndex hw d0 (i.val : Int)).2.destroy
            (TimerController.newIndex hw d0 (i.val : Int)).1).1
          (i.val : Int)).2.getIndex = (i.val : Int)) := by
  have hl := destroy_lock o d i hc hi
  have hf := destroy_frame o d i hc hi hr
  refine ⟨⟨?_, ?_, ?_, ?_, ?_, ?_⟩, ?_⟩
  · rw [hl]; simp
  · intro j hj
    rw [hl, Function.update_noteq hj]
  · rw [hf.1]; simp
  · rw [hf.1]; simp
  · rw [hf.1]; simp
  · intro j hj
    rw [hf.1, Function.update_noteq hj]
  · intro hok
    rcases newIndex_cases hw d0 (i.val : Int) with hfail | ⟨k, hinit, ht, hfree, ho, hlock, _, _, hinit'⟩
    · rw [hfail.1] at hok
      cases hok
    · have hk : k = i := by
        have := (timerOf_eq_some (i.val : Int) i).2 rfl
        rw [ht] at this
        exact Option.some.inj this
      subst hk
      have hl1 := destroy_lock (TimerController.newIndex hw d0 (k.val : Int)).2
        (TimerController.newIndex hw d0 (k.val : Int)).1 k (by rw [ho]) (by rw [ho])
      have hf1 := destroy_frame (TimerController.newIndex hw d0 (k.val : Int)).2
        (TimerController.newIndex hw d0 (k.val : Int)).1 k (by rw [ho]) (by rw [ho])
        (by rw [ho])
      have hback : ((TimerController.newIndex hw d0 (k.val : Int)).2.destroy
          (TimerController.newIndex hw d0 (k.val : Int)).1).1.lock_ = d0.lock_ := by
        rw [hl1, hlock, Function.update_idem, ← hfree, Function.update_eq_self]
      have hinit2 : ((TimerController.newIndex hw d0 (k.val : Int)).2.destroy
          (TimerController.newIndex hw d0 (k.val : Int)).1).1.isInitialized_ =
            IS_INITIALIZED := by
        rw [hf1.2.1, hinit', hinit]
      refine ⟨by rw [ho], by rw [ho], by rw [hlock]; simp, hback, ?_⟩
      rcases newIndex_cases hw
          ((TimerController.newIndex hw d0 (k.val : Int)).2.destroy
            (TimerController.newIndex hw d0 (k.val : Int)).1).1 (k.val : Int)
        with hfail2 | ⟨m, _, _, _, ho2, _⟩
      · exfalso
        apply hfail2.2.2.2.2.2
        refine ⟨hinit2, k, ht, ?_⟩
        rw [hback]
        exact hfree
      · rw [ho2]
        exact ⟨rfl, rfl⟩

/-- Instance of C21: TimerController(1) on the initialized driver of the
worked examples, started, then destroyed. -/
theorem timer_destroy_roundtrip_witness :
    (exampleTimer.2.destroy (exampleTimer.2.start exampleHw exampleTimer.1)).1.lock_ 1 = false ∧
      ((exampleTimer.2.destroy (exampleTimer.2.start exampleHw exampleTimer.1)).1.regs 1).ctl
        = 0 ∧
      ((TimerController.newIndex exampleHw warmDriver ((1 : Fin 3).val : Int)).2.destroy
        (TimerController.newIndex exampleHw warmDriver ((1 : Fin 3).val : Int)).1).1.lock_ =
          warmDriver.lock_ ∧
      (TimerController.newIndex exampleHw
        ((TimerController.newIndex exampleHw warmDriver ((1 : Fin 3).val : Int)).2.destroy
          (TimerController.newIndex exampleHw warmDriver ((1 : Fin 3).val : Int)).1).1
        ((1 : Fin 3).val : Int)).2.isConstructed_ = true :=
  ⟨(timer_destroy_roundtrip exampleHw exampleTimer.2
      (exampleTimer.2.start exampleHw exampleTimer.1) warmDriver 1
      (by decide) (by decide) (by decide)).1.1,
    (timer_destroy_roundtrip exampleHw exampleTimer.2
      (exampleTimer.2.start exampleHw exampleTimer.1) warmDriver 1
      (by decide) (by decide) (by decide)).1.2.2.1,
    ((timer_destroy_roundtrip exampleHw exampleTimer.2
      (exampleTimer.2.start exampleHw exampleTimer.1) warmDriver 1
      (by decide) (by decide) (by decide)).2 (by decide)).2.2.2.1,
    ((timer_destroy_roundtrip exampleHw exampleTimer.2
      (exampleTimer.2.start exampleHw exampleTimer.1) warmDriver 1
      (by decide) (by decide) (by decide)).2 (by decide)).2.2.2.2.1⟩

end Boos
